import Mathlib

/-!
# Verification of the PE-Visualizer binary-parser core

A shallow embedding, in Lean 4, of the structural-parser and search core of
the PE-Visualizer-Online repository (TypeScript).  JavaScript strings are
modelled as lists of UTF-16 code units (`JSString`), byte buffers as lists of
naturals, `DataView` reads as bounds-checked operations in the `Except` monad
(JavaScript's `DataView` throws `RangeError` on an out-of-bounds read), and
functions that may throw return `Except JSError _`.
-/

set_option maxRecDepth 4000

/-- A JavaScript string: its sequence of UTF-16 code units
(`s.charCodeAt i` is element `i`, `s.length` its length). -/
abbrev JSString := List Nat

/-- UTF-16 code units of an ASCII Lean string literal (all source literals are
ASCII, where code point and UTF-16 code unit coincide). -/
def jstr (s : String) : JSString := s.toList.map Char.toNat

/-- Exceptions that the embedded code can raise. -/
inductive JSError where
  /-- Raised by `throw new Error(msg)` from validation code in the search service. -/
  | err (msg : JSString)
  /-- The `RangeError` raised by a `DataView` read outside the buffer. -/
  | rangeErr
  /-- Error raised by the `RegExp` constructor on an invalid pattern. -/
  | reErr
deriving DecidableEq

/-! ## DataView reads

Unchecked (`u8`, `u16le`, ...) forms give the numeric value read at an
in-bounds offset; the `dv*` forms add the bounds check JavaScript's
`DataView` accessors perform, raising `RangeError` otherwise. -/

def u8 (b : List Nat) (i : Nat) : Nat := b.getD i 0

def u16le (b : List Nat) (i : Nat) : Nat := u8 b i + 256 * u8 b (i + 1)

def u16be (b : List Nat) (i : Nat) : Nat := 256 * u8 b i + u8 b (i + 1)

def u32le (b : List Nat) (i : Nat) : Nat :=
  u8 b i + 256 * (u8 b (i + 1) + 256 * (u8 b (i + 2) + 256 * u8 b (i + 3)))

def u32be (b : List Nat) (i : Nat) : Nat :=
  u8 b (i + 3) + 256 * (u8 b (i + 2) + 256 * (u8 b (i + 1) + 256 * u8 b i))

def u64le (b : List Nat) (i : Nat) : Nat := u32le b i + 4294967296 * u32le b (i + 4)

def u64be (b : List Nat) (i : Nat) : Nat := 4294967296 * u32be b i + u32be b (i + 4)

def dvGetUint8 (b : List Nat) (i : Nat) : Except JSError Nat :=
  if i + 1 ≤ b.length then .ok (u8 b i) else .error .rangeErr

def dvGetUint16 (b : List Nat) (i : Nat) (littleEndian : Bool) : Except JSError Nat :=
  if i + 2 ≤ b.length then .ok (if littleEndian then u16le b i else u16be b i)
  else .error .rangeErr

def dvGetUint32 (b : List Nat) (i : Nat) (littleEndian : Bool) : Except JSError Nat :=
  if i + 4 ≤ b.length then .ok (if littleEndian then u32le b i else u32be b i)
  else .error .rangeErr

/-- Model of `getInt32`: the unsigned 32-bit read, reinterpreted as two's complement. -/
def dvGetInt32 (b : List Nat) (i : Nat) (littleEndian : Bool) : Except JSError Int :=
  (dvGetUint32 b i littleEndian).map fun u =>
    if u < 2147483648 then (u : Int) else (u : Int) - 4294967296

/-- Model of `getBigUint64`: BigInt is arbitrary precision, so a plain natural. -/
def dvGetBigUint64 (b : List Nat) (i : Nat) (littleEndian : Bool) : Except JSError Nat :=
  if i + 8 ≤ b.length then .ok (if littleEndian then u64le b i else u64be b i)
  else .error .rangeErr

/-! ## Shared data model (`types.ts`) -/

/-- The `SectionMetadata` record from `types.ts`. -/
structure SectionMetadata where
  name : JSString
  virtualAddress : Nat
  virtualSize : Nat
  pointerToRawData : Nat
  sizeOfRawData : Nat
deriving DecidableEq

/-- The `SearchResult` record from `types.ts`: `{offset, size, rva?, matchVal?}`. -/
structure SearchResult where
  offset : Nat
  size : Nat
  rva : Option Nat
  matchVal : Option JSString
deriving DecidableEq

/-- The `string | number` payload of a region `value` or `details` entry. -/
inductive JSValue where
  | str (s : JSString)
  | num (n : Nat)
deriving DecidableEq

/-- The `RegionType` enum (the tags used across all parsers). -/
inductive RegionType where
  | DOS_HEADER | NT_HEADERS | FILE_HEADER | OPTIONAL_HEADER
  | SECTION_HEADER | SECTION_DATA | DATA_DIRECTORY | OVERLAY
  | FIELD | UNKNOWN
  | IMAGE_HEADER | IMAGE_DATA | PNG_CHUNK | JPEG_SEGMENT | HEIC_BOX
  | MACHO_HEADER | LOAD_COMMAND | SEGMENT | FAT_HEADER
deriving DecidableEq

/-- The `PERegion` node from `types.ts` (the shared region-tree node; `type` is spelled
`rtype` because of the Lean keywordish name).  Optional object fields are
`Option`s; `children` is `none` when the source object literal omits it. -/
inductive Region where
  | mk (name : JSString) (offset : Nat) (size : Nat) (rtype : RegionType)
       (description : Option JSString) (value : Option JSValue) (color : JSString)
       (children : Option (List Region))
       (details : Option (List (JSString × JSValue)))

@[simp] def Region.name : Region → JSString | .mk n _ _ _ _ _ _ _ _ => n
@[simp] def Region.offset : Region → Nat | .mk _ o _ _ _ _ _ _ _ => o
@[simp] def Region.size : Region → Nat | .mk _ _ s _ _ _ _ _ _ => s
@[simp] def Region.rtype : Region → RegionType | .mk _ _ _ t _ _ _ _ _ => t
@[simp] def Region.description : Region → Option JSString | .mk _ _ _ _ d _ _ _ _ => d
@[simp] def Region.value : Region → Option JSValue | .mk _ _ _ _ _ v _ _ _ => v
@[simp] def Region.color : Region → JSString | .mk _ _ _ _ _ _ c _ _ => c
@[simp] def Region.children : Region → Option (List Region) | .mk _ _ _ _ _ _ _ ch _ => ch
@[simp] def Region.details : Region → Option (List (JSString × JSValue)) | .mk _ _ _ _ _ _ _ _ d => d

/-- The color palette consumed by the parsers.  Entries present in `types.ts`
carry the source values; the image/Mach-O entries are referenced by the parsers
but their defining constants are not among the sources (purely cosmetic display
tags per the spec), so they carry placeholder strings. -/
structure Palette where
  DOS : JSString
  NT : JSString
  OPTIONAL : JSString
  SECTION_HEADER : JSString
  DATA_DIR : JSString
  SECTION_DATA : JSString
  OVERLAY : JSString
  FIELD : JSString
  DEFAULT : JSString
  IMAGE_HEADER : JSString
  IMAGE_DATA : JSString
  PNG_CHUNK : JSString
  JPEG_SEGMENT : JSString
  HEIC_BOX : JSString
  MACHO_HEADER : JSString
  LOAD_COMMAND : JSString
  SEGMENT : JSString
  FAT_HEADER : JSString

def COLORS : Palette where
  DOS := jstr "#4682B4"
  NT := jstr "#228B22"
  OPTIONAL := jstr "#FFA500"
  SECTION_HEADER := jstr "#800080"
  DATA_DIR := jstr "#DAA520"
  SECTION_DATA := jstr "#D3D3D3"
  OVERLAY := jstr "#696969"
  FIELD := jstr "#00CED1"
  DEFAULT := jstr "#A0A0A0"
  IMAGE_HEADER := jstr "#IMAGE_HEADER"
  IMAGE_DATA := jstr "#IMAGE_DATA"
  PNG_CHUNK := jstr "#PNG_CHUNK"
  JPEG_SEGMENT := jstr "#JPEG_SEGMENT"
  HEIC_BOX := jstr "#HEIC_BOX"
  MACHO_HEADER := jstr "#MACHO_HEADER"
  LOAD_COMMAND := jstr "#LOAD_COMMAND"
  SEGMENT := jstr "#SEGMENT"
  FAT_HEADER := jstr "#FAT_HEADER"

def DARK_COLORS : Palette :=
  { COLORS with SECTION_DATA := jstr "#4A5568", FIELD := jstr "#20B2AA" }

/-- The `ParsedFile` record from `types.ts`.  The raw buffer (`data`, a `DataView` over
the input `ArrayBuffer`) is the byte list itself. -/
structure ParsedFile where
  name : JSString
  size : Nat
  data : List Nat
  regions : List Region
  sectionsMetadata : List SectionMetadata
  isValid : Bool
  error : Option JSString := none
  format : JSString

/-! ## Offset → RVA mapper (`peParser.ts`, `offsetToRva`) -/

/-- The `for (const sec of sections)` loop of `offsetToRva`: return at the
first section whose raw range contains `offset` with in-section delta below
its virtual size; otherwise keep scanning. -/
def offsetToRvaLoop (offset : Nat) : List SectionMetadata → Option Nat
  | [] => none
  | sec :: rest =>
    if sec.pointerToRawData ≤ offset ∧ offset < sec.pointerToRawData + sec.sizeOfRawData ∧
        offset - sec.pointerToRawData < sec.virtualSize then
      some (sec.virtualAddress + (offset - sec.pointerToRawData))
    else offsetToRvaLoop offset rest

/-- The `offsetToRva` mapper from `peParser.ts`. -/
def offsetToRva (offset : Nat) (sections : List SectionMetadata) : Option Nat :=
  match offsetToRvaLoop offset sections with
  | some v => some v
  | none =>
    match sections with
    | [] => none
    | sec0 :: _ => if offset < sec0.pointerToRawData then some offset else none

/-! ## Search engine (`searchService.ts`, `searchPE`) -/

inductive SearchMode where
  | hex | ascii | unicode
deriving DecidableEq

/-- ECMAScript `\s` (WhiteSpace and LineTerminator code points). -/
def jsWhitespace (c : Nat) : Bool :=
  c = 0x9 ∨ c = 0xA ∨ c = 0xB ∨ c = 0xC ∨ c = 0xD ∨ c = 0x20 ∨ c = 0xA0 ∨
  c = 0x1680 ∨ (0x2000 ≤ c ∧ c ≤ 0x200A) ∨ c = 0x2028 ∨ c = 0x2029 ∨
  c = 0x202F ∨ c = 0x205F ∨ c = 0x3000 ∨ c = 0xFEFF

/-- Model of `query.replace(/0x/gi, '')`: left-to-right removal of the non-overlapping
occurrences of `0x` / `0X` (code units 48, then 120 or 88). -/
def remove0x : JSString → JSString
  | [] => []
  | [c] => [c]
  | 48 :: c :: rest =>
    if c = 120 ∨ c = 88 then remove0x rest else 48 :: remove0x (c :: rest)
  | c :: rest => c :: remove0x rest

def isHexDigit (c : Nat) : Bool :=
  (48 ≤ c ∧ c ≤ 57) ∨ (65 ≤ c ∧ c ≤ 70) ∨ (97 ≤ c ∧ c ≤ 102)

/-- Model of `/^[0-9A-Fa-f]+$/.test s` (at least one code unit, all hex digits). -/
def isHexString (s : JSString) : Bool := !s.isEmpty && s.all isHexDigit

def hexDigitVal (c : Nat) : Nat :=
  if 48 ≤ c ∧ c ≤ 57 then c - 48
  else if 65 ≤ c ∧ c ≤ 70 then c - 55
  else if 97 ≤ c ∧ c ≤ 102 then c - 87
  else 0

/-- Model of `parseInt(cleanQuery.substr(i, 2), 16)` over consecutive pairs. -/
def hexToBytes : JSString → List Nat
  | a :: b :: rest => (16 * hexDigitVal a + hexDigitVal b) :: hexToBytes rest
  | _ => []

/-- UTF-16LE encoding of a query: per code unit, `code & 0xFF` then
`(code >> 8) & 0xFF`. -/
def utf16le (q : JSString) : List Nat :=
  q.flatMap fun code => [code % 256, code / 256 % 256]

/-- The inner `for (j …) if (buffer[i+j] !== searchBytes[j])` comparison. -/
def matchAt (buf pat : List Nat) (i : Nat) : Bool :=
  (List.range pat.length).all fun j => u8 buf (i + j) == pat.getD j 0

/-- The result object pushed for a literal match at position `i`. -/
def mkScanRes (pat : List Nat) (secs : List SectionMetadata) (mv : JSString)
    (i : Nat) : SearchResult :=
  { offset := i, size := pat.length, rva := offsetToRva i secs, matchVal := some mv }

/-- The sliding-scan `for` loop shared by the hex / ascii-literal / unicode
branches of `searchPE`: `rem` counts the loop iterations still to run, and
`if (results.length >= 2000) break` ends the loop right after a push. -/
def scanGo (buf pat : List Nat) (secs : List SectionMetadata) (mv : JSString) :
    Nat → Nat → List SearchResult → List SearchResult
  | _, 0, results => results
  | i, rem + 1, results =>
    if matchAt buf pat i then
      let results' := results ++ [mkScanRes pat secs mv i]
      if 2000 ≤ results'.length then results'
      else scanGo buf pat secs mv (i + 1) rem results'
    else scanGo buf pat secs mv (i + 1) rem results

/-- The loop `for (let i = 0; i <= len - sLen; i++) …` — no iteration when the pattern
is longer than the buffer (the JS bound `len - sLen` is then negative). -/
def slidingScan (buf pat : List Nat) (secs : List SectionMetadata) (mv : JSString) :
    List SearchResult :=
  if pat.length ≤ buf.length then
    scanGo buf pat secs mv 0 (buf.length - pat.length + 1) []
  else []

/-- Model of a compiled global JS regex: given the subject string and the
current `lastIndex`, `exec` yields the next match's index and length, or
`none`.  The `RegExp` object itself cannot be expressed in a shallow
embedding, so `searchPE` receives the engine as an argument. -/
abbrev RegexEngine := List Nat → Nat → Option (Nat × Nat)

/-- The loop `while ((match = regex.exec(str)) !== null) { push; if (≥ 2000) break }`.
Each iteration pushes exactly one result, so the loop runs at most 2000
times; `fuel` is the remaining capacity `2000 - results.length`. -/
def regexLoop (exec : RegexEngine) (str : List Nat) (secs : List SectionMetadata) :
    Nat → Nat → List SearchResult → List SearchResult
  | 0, _, results => results
  | fuel + 1, lastIndex, results =>
    match exec str lastIndex with
    | none => results
    | some (idx, mlen) =>
      regexLoop exec str secs fuel (idx + mlen)
        (results ++ [{ offset := idx, size := mlen, rva := offsetToRva idx secs,
                       matchVal := some ((str.drop idx).take mlen) }])

def msgInvalidHex : JSString := jstr "Invalid Hex String"

def msgTooLarge : JSString := jstr "File too large for Regex search (max 50MB)"

def msgUnicodeRegex : JSString :=
  jstr "Regex not supported for Unicode (Raw) search in this version."

/-- The spec's `SearchInputError` taxonomy: the `Error`s thrown by the
validation code in `searchPE` (malformed hex query, oversized buffer for
regex, unicode+regex combination). -/
def SearchInputError (e : JSError) : Prop :=
  e = .err msgInvalidHex ∨ e = .err msgTooLarge ∨ e = .err msgUnicodeRegex

/-- The `searchPE` function from `searchService.ts`.  `regexCompile` stands for
`new RegExp(query, 'g')`: `none` when the constructor rejects the pattern. -/
def searchPE (file : ParsedFile) (query : JSString) (mode : SearchMode)
    (useRegex : Bool) (regexCompile : JSString → Option RegexEngine) :
    Except JSError (List SearchResult) :=
  let buffer := file.data
  let len := buffer.length
  if query.isEmpty then .ok []
  else
    match mode with
    | .hex =>
      let cleanQuery := remove0x (query.filter fun c => !jsWhitespace c)
      if cleanQuery.length % 2 ≠ 0 ∨ ¬ isHexString cleanQuery then
        .error (.err msgInvalidHex)
      else
        let searchBytes := hexToBytes cleanQuery
        .ok (slidingScan buffer searchBytes file.sectionsMetadata cleanQuery)
    | .ascii =>
      if useRegex then
        if 50 * 1024 * 1024 < len then .error (.err msgTooLarge)
        else
          match regexCompile query with
          | none => .error .reErr
          | some exec => .ok (regexLoop exec buffer file.sectionsMetadata 2000 0 [])
      else .ok (slidingScan buffer query file.sectionsMetadata query)
    | .unicode =>
      if useRegex then .error (.err msgUnicodeRegex)
      else .ok (slidingScan buffer (utf16le query) file.sectionsMetadata query)

/-! ## C10: the empty query short-circuits every mode -/

/-- C10: for every `ParsedFile`, every mode (hex, ascii, unicode) and every
regex flag, `searchPE` with an empty query returns the empty result list and
raises no error — `if (!query) return []` runs before the unicode+regex
rejection and before hex validation. -/
theorem searchPE_empty_query (file : ParsedFile) (mode : SearchMode)
    (useRegex : Bool) (regexCompile : JSString → Option RegexEngine) :
    searchPE file [] mode useRegex regexCompile = .ok [] := rfl

/-! ## C4: regex search on a > 50 MB buffer -/

/-- A 50 MB + 1 byte buffer. -/
def bigBufC4 : List Nat := List.replicate (50 * 1024 * 1024 + 1) 0

def bigFileC4 : ParsedFile :=
  { name := [], size := 50 * 1024 * 1024 + 1, data := bigBufC4, regions := [],
    sectionsMetadata := [], isValid := true, format := jstr "PE" }

/-- C4 counterexample: with the regex flag set on a buffer larger than 50 MB,
the *empty* query does not raise `SearchInputError` — `searchPE` returns `[]`
before any validation runs.  The claim quantified over *every* query. -/
theorem searchPE_large_regex_empty_query_ok :
    50 * 1024 * 1024 < bigFileC4.data.length ∧
      searchPE bigFileC4 [] .ascii true (fun _ => none) = .ok [] := by
  refine ⟨?_, rfl⟩
  show 50 * 1024 * 1024 < bigBufC4.length
  rw [bigBufC4, List.length_replicate]
  omega

/-- C4 (amended): for every buffer larger than 50 MB and every *non-empty*
query, `searchPE` with the regex flag set raises a `SearchInputError` in the
modes where the flag is consulted (`ascii`: the size guard fires before the
regex is even compiled; `unicode`: the regex/unicode combination is rejected).
In `hex` mode the regex flag is ignored by the source. -/
theorem searchPE_large_regex_raises (file : ParsedFile) (query : JSString)
    (mode : SearchMode) (regexCompile : JSString → Option RegexEngine)
    (hlen : 50 * 1024 * 1024 < file.data.length) (hq : query ≠ [])
    (hmode : mode = .ascii ∨ mode = .unicode) :
    ∃ e, searchPE file query mode true regexCompile = .error e ∧ SearchInputError e := by
  have hq' : query.isEmpty = false := by
    cases query with
    | nil => exact absurd rfl hq
    | cons a l => rfl
  rcases hmode with h | h <;> subst h
  · exact ⟨.err msgTooLarge, by simp [searchPE, hq', hlen], Or.inr (Or.inl rfl)⟩
  · exact ⟨.err msgUnicodeRegex, by simp [searchPE, hq'], Or.inr (Or.inr rfl)⟩

/-- Witness for the amended C4 at a concrete oversized buffer and query. -/
theorem searchPE_large_regex_raises_witness :
    ∃ e, searchPE bigFileC4 (jstr "a") .ascii true (fun _ => none) = .error e ∧
      SearchInputError e :=
  searchPE_large_regex_raises bigFileC4 (jstr "a") .ascii (fun _ => none)
    (by show 50 * 1024 * 1024 < bigBufC4.length
        rw [bigBufC4, List.length_replicate]; omega)
    (by decide) (Or.inl rfl)

/-! ## C6: the offset → RVA mapping contract -/

/-- The per-section condition of `offsetToRva`: the section's raw range
contains the offset and the in-section delta is below its virtual size. -/
def rvaHit (offset : Nat) (sec : SectionMetadata) : Bool :=
  sec.pointerToRawData ≤ offset ∧ offset < sec.pointerToRawData + sec.sizeOfRawData ∧
    offset - sec.pointerToRawData < sec.virtualSize

theorem offsetToRvaLoop_eq_find (offset : Nat) (sections : List SectionMetadata) :
    offsetToRvaLoop offset sections =
      (sections.find? (rvaHit offset)).map
        (fun sec => sec.virtualAddress + (offset - sec.pointerToRawData)) := by
  induction sections with
  | nil => rfl
  | cons sec rest ih =>
    by_cases h : sec.pointerToRawData ≤ offset ∧
        offset < sec.pointerToRawData + sec.sizeOfRawData ∧
        offset - sec.pointerToRawData < sec.virtualSize
    · simp [offsetToRvaLoop, List.find?_cons, rvaHit, h]
    · simp [offsetToRvaLoop, List.find?_cons, rvaHit, h, ih]

/-- C6: `offsetToRva` returns `virtualAddress + delta` for the first section
(in list order) whose raw range contains the offset with delta below its
virtual size; failing that it returns the offset unchanged exactly when the
list is non-empty and the offset precedes the first section's raw start; in
every other case it returns `undefined` (`none`). -/
theorem offsetToRva_spec (offset : Nat) (sections : List SectionMetadata) :
    (∀ sec, sections.find? (rvaHit offset) = some sec →
        offsetToRva offset sections =
          some (sec.virtualAddress + (offset - sec.pointerToRawData)))
    ∧ (sections.find? (rvaHit offset) = none →
        ∀ sec0 rest, sections = sec0 :: rest → offset < sec0.pointerToRawData →
          offsetToRva offset sections = some offset)
    ∧ (sections.find? (rvaHit offset) = none →
        (sections = [] ∨
          ∀ sec0 rest, sections = sec0 :: rest → ¬ offset < sec0.pointerToRawData) →
        offsetToRva offset sections = none) := by
  refine ⟨?_, ?_, ?_⟩
  · intro sec h
    simp [offsetToRva, offsetToRvaLoop_eq_find, h]
  · intro h sec0 rest hs hlt
    subst hs
    simp [offsetToRva, offsetToRvaLoop_eq_find, h, hlt]
  · intro h hcase
    rcases hcase with he | hge
    · subst he
      simp [offsetToRva, offsetToRvaLoop_eq_find]
    · cases sections with
      | nil => simp [offsetToRva, offsetToRvaLoop_eq_find]
      | cons sec0 rest =>
        have hnlt := hge sec0 rest rfl
        simp only [offsetToRva, offsetToRvaLoop_eq_find, h, Option.map_none']
        simp [hnlt]

/-- Witness for C6: a section `[raw 0x400, rawSize 0x200, va 0x1000,
vsize 0x100]` maps file offset 0x410 to RVA 0x1010. -/
theorem offsetToRva_spec_witness :
    offsetToRva 1040 [⟨[], 4096, 256, 1024, 512⟩] = some (4096 + (1040 - 1024)) :=
  (offsetToRva_spec 1040 [⟨[], 4096, 256, 1024, 512⟩]).1 ⟨[], 4096, 256, 1024, 512⟩
    (by decide)

/-! ## C5 / C7: properties of the scan loops -/

theorem isEmpty_false_of_ne_nil {q : JSString} (h : q ≠ []) : q.isEmpty = false := by
  cases q with
  | nil => exact absurd rfl h
  | cons a l => rfl

theorem scanGo_length_le (buf pat : List Nat) (secs : List SectionMetadata)
    (mv : JSString) : ∀ rem i results, results.length < 2000 →
    (scanGo buf pat secs mv i rem results).length ≤ 2000 := by
  intro rem
  induction rem with
  | zero =>
    intro i results h
    simpa [scanGo] using Nat.le_of_lt h
  | succ n ih =>
    intro i results h
    by_cases hm : matchAt buf pat i = true
    · by_cases hc : 2000 ≤ (results ++ [mkScanRes pat secs mv i]).length
      · simp only [scanGo, hm, if_true, hc]
        simp only [List.length_append, List.length_singleton]
        omega
      · simp only [scanGo, hm, if_true, hc, if_false]
        exact ih _ _ (by simp only [List.length_append, List.length_singleton] at hc ⊢; omega)
    · simp only [scanGo, hm, Bool.false_eq_true, if_false]
      exact ih _ _ h

theorem scanGo_sorted (buf pat : List Nat) (secs : List SectionMetadata)
    (mv : JSString) : ∀ rem i results,
    (results.map SearchResult.offset).Pairwise (· ≤ ·) →
    (∀ r ∈ results, r.offset < i) →
    ((scanGo buf pat secs mv i rem results).map SearchResult.offset).Pairwise (· ≤ ·) := by
  intro rem
  induction rem with
  | zero =>
    intro i results h1 _
    simpa [scanGo] using h1
  | succ n ih =>
    intro i results h1 h2
    have hsorted' : ((results ++ [mkScanRes pat secs mv i]).map SearchResult.offset).Pairwise (· ≤ ·) := by
      rw [List.map_append]
      rw [List.pairwise_append]
      refine ⟨h1, by simp, ?_⟩
      intro a ha b hb
      simp only [List.map_singleton, List.mem_singleton] at hb
      subst hb
      rcases List.mem_map.mp ha with ⟨r, hr, rfl⟩
      have := h2 r hr
      simp [mkScanRes]
      omega
    have hlt' : ∀ r ∈ results ++ [mkScanRes pat secs mv i], r.offset < i + 1 := by
      intro r hr
      rcases List.mem_append.mp hr with hr | hr
      · exact Nat.lt_succ_of_lt (h2 r hr)
      · simp only [List.mem_singleton] at hr
        subst hr
        simp [mkScanRes]
    by_cases hm : matchAt buf pat i = true
    · by_cases hc : 2000 ≤ (results ++ [mkScanRes pat secs mv i]).length
      · simpa only [scanGo, hm, if_true, hc] using hsorted'
      · simp only [scanGo, hm, if_true, hc, if_false]
        exact ih _ _ hsorted' hlt'
    · simp only [scanGo, hm, Bool.false_eq_true, if_false]
      exact ih _ _ h1 (fun r hr => Nat.lt_succ_of_lt (h2 r hr))


theorem scanGo_mem (buf pat : List Nat) (secs : List SectionMetadata)
    (mv : JSString) : ∀ rem i results r,
    r ∈ scanGo buf pat secs mv i rem results →
    r ∈ results ∨ ∃ j, i ≤ j ∧ j < i + rem ∧ matchAt buf pat j = true ∧
      r = mkScanRes pat secs mv j := by
  intro rem
  induction rem with
  | zero =>
    intro i results r hr
    exact Or.inl (by simpa [scanGo] using hr)
  | succ n ih =>
    intro i results r hr
    by_cases hm : matchAt buf pat i = true
    · have decomp : r ∈ results ++ [mkScanRes pat secs mv i] →
          r ∈ results ∨ ∃ j, i ≤ j ∧ j < i + (n + 1) ∧ matchAt buf pat j = true ∧
            r = mkScanRes pat secs mv j := by
        intro hin
        rcases List.mem_append.mp hin with hin | hin
        · exact Or.inl hin
        · simp only [List.mem_singleton] at hin
          exact Or.inr ⟨i, Nat.le_refl i, by omega, hm, hin⟩
      by_cases hc : 2000 ≤ (results ++ [mkScanRes pat secs mv i]).length
      · simp only [scanGo, hm, if_true, hc] at hr
        exact decomp hr
      · simp only [scanGo, hm, if_true, hc, if_false] at hr
        rcases ih _ _ _ hr with hin | ⟨j, hj1, hj2, hj3, hj4⟩
        · exact decomp hin
        · exact Or.inr ⟨j, by omega, by omega, hj3, hj4⟩
    · simp only [scanGo, hm, Bool.false_eq_true, if_false] at hr
      rcases ih _ _ _ hr with hin | ⟨j, hj1, hj2, hj3, hj4⟩
      · exact Or.inl hin
      · exact Or.inr ⟨j, by omega, by omega, hj3, hj4⟩

theorem slidingScan_sorted (buf pat : List Nat) (secs : List SectionMetadata)
    (mv : JSString) :
    ((slidingScan buf pat secs mv).map SearchResult.offset).Pairwise (· ≤ ·) := by
  unfold slidingScan
  by_cases h : pat.length ≤ buf.length
  · simp only [h, if_true]
    exact scanGo_sorted buf pat secs mv _ 0 [] (by simp) (by simp)
  · simp [h]

theorem slidingScan_length (buf pat : List Nat) (secs : List SectionMetadata)
    (mv : JSString) : (slidingScan buf pat secs mv).length ≤ 2000 := by
  unfold slidingScan
  by_cases h : pat.length ≤ buf.length
  · simp only [h, if_true]
    exact scanGo_length_le buf pat secs mv _ 0 [] (by simp)
  · simp [h]

theorem slidingScan_mem (buf pat : List Nat) (secs : List SectionMetadata)
    (mv : JSString) (r : SearchResult) (hr : r ∈ slidingScan buf pat secs mv) :
    ∃ j, j + pat.length ≤ buf.length ∧ matchAt buf pat j = true ∧
      r = mkScanRes pat secs mv j := by
  unfold slidingScan at hr
  by_cases h : pat.length ≤ buf.length
  · simp only [h, if_true] at hr
    rcases scanGo_mem buf pat secs mv _ 0 [] r hr with hin | ⟨j, _, hj2, hj3, hj4⟩
    · simp at hin
    · exact ⟨j, by omega, hj3, hj4⟩
  · simp [h] at hr

/-- The property of JavaScript's `RegExp.exec` with the `g` flag that the
loop relies on: a match is found at or after the current `lastIndex`. -/
def EngineMono (exec : RegexEngine) : Prop :=
  ∀ str li idx mlen, exec str li = some (idx, mlen) → li ≤ idx

theorem regexLoop_length (exec : RegexEngine) (str : List Nat)
    (secs : List SectionMetadata) : ∀ fuel li results,
    (regexLoop exec str secs fuel li results).length ≤ results.length + fuel := by
  intro fuel
  induction fuel with
  | zero =>
    intro li results
    simp [regexLoop]
  | succ n ih =>
    intro li results
    cases hx : exec str li with
    | none => simp [regexLoop, hx]
    | some p =>
      obtain ⟨idx, mlen⟩ := p
      simp only [regexLoop, hx]
      calc (regexLoop exec str secs n (idx + mlen) _).length
          ≤ _ + n := ih _ _
        _ ≤ results.length + (n + 1) := by
            simp only [List.length_append, List.length_singleton]
            omega

theorem regexLoop_sorted (exec : RegexEngine) (str : List Nat)
    (secs : List SectionMetadata) (hmono : EngineMono exec) : ∀ fuel li results,
    (results.map SearchResult.offset).Pairwise (· ≤ ·) →
    (∀ r ∈ results, r.offset ≤ li) →
    ((regexLoop exec str secs fuel li results).map SearchResult.offset).Pairwise (· ≤ ·) := by
  intro fuel
  induction fuel with
  | zero =>
    intro li results h1 _
    simpa [regexLoop] using h1
  | succ n ih =>
    intro li results h1 h2
    cases hx : exec str li with
    | none => simpa [regexLoop, hx] using h1
    | some p =>
      obtain ⟨idx, mlen⟩ := p
      have hli : li ≤ idx := hmono str li idx mlen hx
      simp only [regexLoop, hx]
      apply ih
      · rw [List.map_append, List.pairwise_append]
        refine ⟨h1, by simp, ?_⟩
        intro a ha b hb
        simp only [List.map_singleton, List.mem_singleton] at hb
        subst hb
        rcases List.mem_map.mp ha with ⟨r, hr, rfl⟩
        have := h2 r hr
        omega
      · intro r hr
        rcases List.mem_append.mp hr with hr | hr
        · have := h2 r hr
          omega
        · simp only [List.mem_singleton] at hr
          subst hr
          simp only []
          omega

/-- C5: whenever `searchPE` returns normally, the result list is ordered
ascending by offset and holds at most 2000 entries.  The regex branch needs
the (true) fact that `RegExp.exec` with the `g` flag never matches before
`lastIndex`, supplied here as the `EngineMono` hypothesis on the engine. -/
theorem searchPE_sorted_capped (file : ParsedFile) (query : JSString)
    (mode : SearchMode) (useRegex : Bool)
    (regexCompile : JSString → Option RegexEngine)
    (hmono : ∀ exec, regexCompile query = some exec → EngineMono exec)
    (results : List SearchResult)
    (h : searchPE file query mode useRegex regexCompile = .ok results) :
    (results.map SearchResult.offset).Pairwise (· ≤ ·) ∧ results.length ≤ 2000 := by
  unfold searchPE at h
  by_cases hq : query.isEmpty
  · simp only [hq, if_true, Except.ok.injEq] at h
    subst h
    simp
  · simp only [hq, if_false, Bool.false_eq_true] at h
    cases mode with
    | hex =>
      by_cases hv : (remove0x (query.filter fun c => !jsWhitespace c)).length % 2 ≠ 0 ∨
          ¬ isHexString (remove0x (query.filter fun c => !jsWhitespace c))
      · simp only [hv, if_true] at h
        exact absurd h (by simp)
      · simp only [hv, if_false, Except.ok.injEq] at h
        subst h
        exact ⟨slidingScan_sorted _ _ _ _, slidingScan_length _ _ _ _⟩
    | ascii =>
      cases useRegex with
      | false =>
        simp only [Bool.false_eq_true, if_false, Except.ok.injEq] at h
        subst h
        exact ⟨slidingScan_sorted _ _ _ _, slidingScan_length _ _ _ _⟩
      | true =>
        simp only [if_true] at h
        by_cases hlen : 50 * 1024 * 1024 < file.data.length
        · simp only [hlen, if_true] at h
          exact absurd h (by simp)
        · simp only [hlen, if_false] at h
          cases hx : regexCompile query with
          | none =>
            rw [hx] at h
            exact absurd h (by simp)
          | some exec =>
            rw [hx] at h
            simp only [Except.ok.injEq] at h
            subst h
            refine ⟨regexLoop_sorted exec _ _ (hmono exec hx) _ _ _ (by simp) (by simp), ?_⟩
            calc (regexLoop exec file.data file.sectionsMetadata 2000 0 []).length
                ≤ ([] : List SearchResult).length + 2000 := regexLoop_length _ _ _ _ _ _
              _ = 2000 := by simp
    | unicode =>
      cases useRegex with
      | false =>
        simp only [Bool.false_eq_true, if_false, Except.ok.injEq] at h
        subst h
        exact ⟨slidingScan_sorted _ _ _ _, slidingScan_length _ _ _ _⟩
      | true =>
        simp only [if_true] at h
        exact absurd h (by simp)

/-- Witness input for C5: a one-byte file. -/
def fileC5 : ParsedFile :=
  { name := [], size := 1, data := [65], regions := [], sectionsMetadata := [],
    isValid := true, format := jstr "PE" }

/-- Witness for C5 at a concrete file and ascii query. -/
theorem searchPE_sorted_capped_witness :
    (([({ offset := 0, size := 1, rva := none, matchVal := some (jstr "A") } :
        SearchResult)]).map SearchResult.offset).Pairwise (· ≤ ·) ∧
      ([({ offset := 0, size := 1, rva := none, matchVal := some (jstr "A") } :
        SearchResult)]).length ≤ 2000 :=
  searchPE_sorted_capped fileC5 (jstr "A") .ascii false (fun _ => none)
    (fun _ hx => Option.noConfusion hx)
    [{ offset := 0, size := 1, rva := none, matchVal := some (jstr "A") }] rfl

/-! ## C7: unicode mode -/

theorem utf16le_length (q : JSString) : (utf16le q).length = 2 * q.length := by
  induction q with
  | nil => rfl
  | cons c rest ih =>
    show ([c % 256, c / 256 % 256] ++ utf16le rest).length = 2 * (rest.length + 1)
    rw [List.length_append, ih]
    simp only [List.length_cons, List.length_nil]
    omega

theorem matchAt_eq (buf pat : List Nat) (j : Nat) (hm : matchAt buf pat j = true) :
    ∀ n, n < pat.length → buf.getD (j + n) 0 = pat.getD n 0 := by
  intro n hn
  unfold matchAt at hm
  rw [List.all_eq_true] at hm
  have := hm n (List.mem_range.mpr hn)
  simpa [u8] using this

theorem take_drop_eq_of_getD (buf : List Nat) : ∀ (pat : List Nat) (j : Nat),
    j + pat.length ≤ buf.length →
    (∀ n, n < pat.length → buf.getD (j + n) 0 = pat.getD n 0) →
    (buf.drop j).take pat.length = pat := by
  intro pat
  induction pat with
  | nil => simp
  | cons p ps ih =>
    intro j hle h
    have hj : j < buf.length := by
      simp only [List.length_cons] at hle
      omega
    rw [List.drop_eq_getElem_cons hj]
    simp only [List.length_cons, List.take_succ_cons, List.cons.injEq]
    constructor
    · have h0 := h 0 (by simp)
      simpa [List.getD_eq_getElem?_getD, List.getElem?_eq_getElem hj] using h0
    · apply ih (j + 1)
      · simp only [List.length_cons] at hle
        omega
      · intro n hn
        have := h (n + 1) (by simp only [List.length_cons]; omega)
        rw [show j + 1 + n = j + (n + 1) by omega]
        simpa using this

/-- Input for the C7 counterexample and witness. -/
def fileC7 : ParsedFile :=
  { name := [], size := 2, data := [65, 0], regions := [], sectionsMetadata := [],
    isValid := true, format := jstr "PE" }

/-- C7 counterexample: in unicode mode with `useRegex = true`, the *empty*
query does not raise `SearchInputError`; `searchPE` returns `[]` before the
unsupported-combination check runs.  The claim required an error for every
query. -/
theorem searchPE_unicode_regex_empty_query_ok :
    searchPE fileC7 [] .unicode true (fun _ => none) = .ok [] := rfl

/-- C7 (amended): in unicode mode, every *non-empty* query with
`useRegex = true` raises the `SearchInputError` for the unsupported
combination; and with `useRegex = false` every returned result has size
`2 * query.length` and the buffer bytes at `[offset, offset+size)` are the
UTF-16LE encoding of the query (low byte first). -/
theorem searchPE_unicode_spec (file : ParsedFile) (query : JSString)
    (regexCompile : JSString → Option RegexEngine) :
    (query ≠ [] →
        searchPE file query .unicode true regexCompile = .error (.err msgUnicodeRegex))
    ∧ (∀ results, searchPE file query .unicode false regexCompile = .ok results →
        ∀ r ∈ results, r.size = 2 * query.length ∧
          (file.data.drop r.offset).take r.size = utf16le query) := by
  constructor
  · intro hq
    have hq' := isEmpty_false_of_ne_nil hq
    simp [searchPE, hq']
  · intro results h r hr
    by_cases hq : query.isEmpty = true
    · unfold searchPE at h
      simp only [hq, if_true, Except.ok.injEq] at h
      subst h
      simp at hr
    · unfold searchPE at h
      simp only [hq, if_false, Bool.false_eq_true, Except.ok.injEq] at h
      subst h
      rcases slidingScan_mem _ _ _ _ r hr with ⟨j, hle, hm, rfl⟩
      refine ⟨by simp [mkScanRes, utf16le_length], ?_⟩
      simp only [mkScanRes]
      exact take_drop_eq_of_getD file.data (utf16le query) j hle
        (matchAt_eq _ _ _ hm)

/-- Witness for the amended C7 at the concrete file `[0x41, 0x00]` and
query `"A"`. -/
theorem searchPE_unicode_spec_witness :
    searchPE fileC7 [65] .unicode true (fun _ => none) = .error (.err msgUnicodeRegex) ∧
      (({ offset := 0, size := 2, rva := none, matchVal := some [65] } :
          SearchResult).size = 2 * ([65] : JSString).length ∧
        (fileC7.data.drop 0).take 2 = utf16le [65]) :=
  ⟨(searchPE_unicode_spec fileC7 [65] (fun _ => none)).1 (by decide),
   (searchPE_unicode_spec fileC7 [65] (fun _ => none)).2
      [{ offset := 0, size := 2, rva := none, matchVal := some [65] }] rfl
      { offset := 0, size := 2, rva := none, matchVal := some [65] }
      (List.mem_singleton.mpr rfl)⟩

/-! ## Hex formatting helpers (`formatHex` etc.) -/

/-- Code unit of a hex digit, uppercase. -/
def hexDigitUpper (d : Nat) : Nat := if d < 10 then 48 + d else 55 + d

/-- Code unit of a hex digit, lowercase. -/
def hexDigitLower (d : Nat) : Nat := if d < 10 then 48 + d else 87 + d

/-- Hex digits of `n`, most significant first.  The first argument is fuel
that only discharges termination: `n` has at most `n` hex digits, so the
initial fuel `n` is never exhausted. -/
def toHexUpperGo : Nat → Nat → JSString
  | 0, _ => []
  | fuel + 1, n =>
    if n = 0 then [] else toHexUpperGo fuel (n / 16) ++ [hexDigitUpper (n % 16)]

/-- Model of `n.toString(16).toUpperCase()`. -/
def toHexUpper (n : Nat) : JSString := if n = 0 then [48] else toHexUpperGo n n

def toHexLowerGo : Nat → Nat → JSString
  | 0, _ => []
  | fuel + 1, n =>
    if n = 0 then [] else toHexLowerGo fuel (n / 16) ++ [hexDigitLower (n % 16)]

/-- Model of `n.toString(16)` (lowercase). -/
def toHexLower (n : Nat) : JSString := if n = 0 then [48] else toHexLowerGo n n

/-- Model of `s.padStart(n, c)`. -/
def padStart (s : JSString) (n : Nat) (c : Nat) : JSString :=
  List.replicate (n - s.length) c ++ s

/-- The `formatHex` helper as defined in the parser modules:
`'0x' + val.toString(16).toUpperCase().padStart(pad, '0')`. -/
def formatHex (v : Nat) (pad : Nat) : JSString := jstr "0x" ++ padStart (toHexUpper v) pad 48

/-! ## PNG parser (`parsePNG`) -/

/-- The bounded `readString` helper shared by the image parsers: reads at most
`min length (byteLength - offset)` bytes, stopping at a NUL. -/
def readStrGo (view : List Nat) (offset : Nat) : Nat → JSString
  | 0 => []
  | n + 1 =>
    let c := u8 view offset
    if c = 0 then [] else c :: readStrGo view (offset + 1) n

def readStringClamped (view : List Nat) (offset length : Nat) : JSString :=
  readStrGo view offset (min length (view.length - offset))

def PNG_CHUNK_TYPES : List (JSString × JSString) :=
  [(jstr "IHDR", jstr "Image Header"), (jstr "PLTE", jstr "Palette"),
   (jstr "IDAT", jstr "Image Data"), (jstr "IEND", jstr "Image End"),
   (jstr "tEXt", jstr "Textual Data"), (jstr "zTXt", jstr "Compressed Text"),
   (jstr "iTXt", jstr "International Text"), (jstr "bKGD", jstr "Background Color"),
   (jstr "cHRM", jstr "Primary Chromaticities"), (jstr "gAMA", jstr "Gamma"),
   (jstr "hIST", jstr "Histogram"), (jstr "pHYs", jstr "Physical Pixel Dimensions"),
   (jstr "sBIT", jstr "Significant Bits"), (jstr "sRGB", jstr "Standard RGB Color Space"),
   (jstr "tIME", jstr "Image Last-Modification Time"), (jstr "tRNS", jstr "Transparency")]

/-- The chunk `while` loop of `parsePNG`: read 4-byte big-endian length,
4-byte type, data, CRC; stop on truncation or right after `IEND`.  The fuel
argument only discharges termination: each iteration advances `offset` by
`totalSize >= 12` and runs only while `offset < view.length`, so the initial
fuel `view.length + 1` strictly dominates the iteration count and the loop
below never stops for lack of fuel. -/
def pngChunkLoop (view : List Nat) (palette : Palette) : Nat → Nat → List Region
  | 0, _ => []
  | fuel + 1, offset =>
  if offset < view.length then
    if view.length < offset + 8 then []
    else
      let length := u32be view offset
      let ctype := readStringClamped view (offset + 4) 4
      let totalSize := 12 + length
      if view.length < offset + totalSize then []
      else
        let desc := (PNG_CHUNK_TYPES.lookup ctype).getD (jstr "Unknown Chunk")
        let baseDetails : List (JSString × JSValue) :=
          [(jstr "Length", .num length), (jstr "Type", .str ctype),
           (jstr "CRC", .str (formatHex (u32be view (offset + 8 + length)) 8))]
        let baseChildren : List Region :=
          [.mk (jstr "Length") offset 4 .FIELD none (some (.num length))
             palette.FIELD none none,
           .mk (jstr "Type") (offset + 4) 4 .FIELD (some desc) (some (.str ctype))
             palette.FIELD none none]
        let details :=
          if ctype = jstr "IHDR" ∧ 13 ≤ length then
            baseDetails ++
              [(jstr "Width", .num (u32be view (offset + 8))),
               (jstr "Height", .num (u32be view (offset + 12))),
               (jstr "BitDepth", .num (u8 view (offset + 16))),
               (jstr "ColorType", .num (u8 view (offset + 17)))]
          else baseDetails
        let children1 :=
          if ctype = jstr "IHDR" ∧ 13 ≤ length then
            baseChildren ++
              [.mk (jstr "Width") (offset + 8) 4 .FIELD none
                 (some (.num (u32be view (offset + 8)))) palette.FIELD none none,
               .mk (jstr "Height") (offset + 12) 4 .FIELD none
                 (some (.num (u32be view (offset + 12)))) palette.FIELD none none,
               .mk (jstr "BitDepth") (offset + 16) 1 .FIELD none
                 (some (.num (u8 view (offset + 16)))) palette.FIELD none none,
               .mk (jstr "ColorType") (offset + 17) 1 .FIELD none
                 (some (.num (u8 view (offset + 17)))) palette.FIELD none none]
          else baseChildren
        let children2 :=
          if 0 < length then
            children1 ++
              [.mk (jstr "Data") (offset + 8) length .IMAGE_DATA
                 (some (if ctype = jstr "IDAT" then jstr "Compressed Image Data"
                        else jstr "Chunk Data"))
                 none palette.IMAGE_DATA none none]
          else children1
        let children3 := children2 ++
          [.mk (jstr "CRC") (offset + 8 + length) 4 .FIELD none
             (some (.str (formatHex (u32be view (offset + 8 + length)) 8)))
             palette.FIELD none none]
        let chunkRegion := Region.mk (jstr "Chunk: " ++ ctype) offset totalSize
          .PNG_CHUNK (some desc) none palette.PNG_CHUNK (some children3) (some details)
        if ctype = jstr "IEND" then [chunkRegion]
        else chunkRegion :: pngChunkLoop view palette fuel (offset + totalSize)
  else []

/-- The `parsePNG` function from the image-parser module.  It never throws (every
`DataView` read in its body is guarded), never reports failure, and pushes
the fixed 8-byte signature region unconditionally. -/
def parsePNG (buffer : List Nat) (fileName : JSString) (isDarkMode : Bool) : ParsedFile :=
  let view := buffer
  let palette := if isDarkMode then DARK_COLORS else COLORS
  let signatureRegion := Region.mk (jstr "PNG Signature") 0 8 .IMAGE_HEADER none
    (some (.str (jstr "89 50 4E 47 0D 0A 1A 0A"))) palette.IMAGE_HEADER none none
  let regions := signatureRegion :: pngChunkLoop view palette (view.length + 1) 8
  { name := fileName, size := buffer.length, data := view, regions := regions,
    sectionsMetadata := [], isValid := true, format := jstr "PNG" }

/-- C1 (code bug): `parsePNG` on the empty buffer reports `isValid := true`
yet emits the unconditional 8-byte signature region `[0, 8)` on a 0-byte
file, violating the invariant `offset + size ≤ file size`. -/
theorem parsePNG_empty_buffer_violates_bounds :
    (parsePNG [] [] true).isValid = true ∧ (parsePNG [] [] true).size = 0 ∧
      ((parsePNG [] [] true).regions.map fun r => (r.offset, r.size)) = [(0, 8)] ∧
      ((parsePNG [] [] true).regions.any fun r =>
        (parsePNG [] [] true).size < r.offset + r.size) = true :=
  ⟨rfl, rfl, by rfl, by rfl⟩

/-! ## C9: the PNG chunk walk -/

theorem pngChunkLoop_chunk_size (view : List Nat) (palette : Palette) :
    ∀ fuel offset, ∀ r ∈ pngChunkLoop view palette fuel offset,
      r.rtype = RegionType.PNG_CHUNK ∧ r.size = 12 + u32be view r.offset := by
  intro fuel
  induction fuel with
  | zero =>
    intro offset r hr
    simp [pngChunkLoop] at hr
  | succ n ih =>
    intro offset r hr
    rw [pngChunkLoop] at hr
    by_cases h1 : offset < view.length
    · rw [if_pos h1] at hr
      by_cases h2 : view.length < offset + 8
      · rw [if_pos h2] at hr
        simp at hr
      · rw [if_neg h2] at hr
        simp only [] at hr
        by_cases h3 : view.length < offset + (12 + u32be view offset)
        · rw [if_pos h3] at hr
          simp at hr
        · rw [if_neg h3] at hr
          by_cases h4 : readStringClamped view (offset + 4) 4 = jstr "IEND"
          · rw [if_pos h4] at hr
            simp only [List.mem_singleton] at hr
            subst hr
            exact ⟨rfl, rfl⟩
          · rw [if_neg h4] at hr
            rcases List.mem_cons.mp hr with hr | hr
            · subst hr
              exact ⟨rfl, rfl⟩
            · exact ih (offset + (12 + u32be view offset)) r hr
    · rw [if_neg h1] at hr
      simp at hr

theorem pngChunkLoop_iend_last (view : List Nat) (palette : Palette) :
    ∀ fuel offset, ∀ l₁ r l₂, pngChunkLoop view palette fuel offset = l₁ ++ r :: l₂ →
      r.name = jstr "Chunk: IEND" → l₂ = [] := by
  intro fuel
  induction fuel with
  | zero =>
    intro offset l₁ r l₂ heq _
    rw [pngChunkLoop] at heq
    exact absurd heq.symm (List.append_ne_nil_of_right_ne_nil l₁ (by simp))
  | succ n ih =>
    intro offset l₁ r l₂ heq hname
    rw [pngChunkLoop] at heq
    by_cases h1 : offset < view.length
    · rw [if_pos h1] at heq
      by_cases h2 : view.length < offset + 8
      · rw [if_pos h2] at heq
        exact absurd heq.symm (List.append_ne_nil_of_right_ne_nil l₁ (by simp))
      · rw [if_neg h2] at heq
        simp only [] at heq
        by_cases h3 : view.length < offset + (12 + u32be view offset)
        · rw [if_pos h3] at heq
          exact absurd heq.symm (List.append_ne_nil_of_right_ne_nil l₁ (by simp))
        · rw [if_neg h3] at heq
          by_cases h4 : readStringClamped view (offset + 4) 4 = jstr "IEND"
          · rw [if_pos h4] at heq
            cases l₁ with
            | nil =>
              simp only [List.nil_append, List.cons.injEq] at heq
              exact heq.2.symm
            | cons a t =>
              simp only [List.cons_append, List.cons.injEq] at heq
              exact absurd heq.2.symm (List.append_ne_nil_of_right_ne_nil t (by simp))
          · rw [if_neg h4] at heq
            cases l₁ with
            | nil =>
              simp only [List.nil_append, List.cons.injEq] at heq
              obtain ⟨hr, -⟩ := heq
              subst hr
              simp only [Region.name] at hname
              have hiend : readStringClamped view (offset + 4) 4 = jstr "IEND" := by
                have hpre : jstr "Chunk: IEND" = jstr "Chunk: " ++ jstr "IEND" := by decide
                rw [hpre] at hname
                exact List.append_cancel_left hname
              exact absurd hiend h4
            | cons a t =>
              simp only [List.cons_append, List.cons.injEq] at heq
              exact ih (offset + (12 + u32be view offset)) t r l₂ heq.2 hname
    · rw [if_neg h1] at heq
      exact absurd heq.symm (List.append_ne_nil_of_right_ne_nil l₁ (by simp))

/-- C9: for every input buffer, `parsePNG` terminates (its walk is a total
function here), emits no region after an `IEND` chunk (such a chunk, when
present, ends the top-level region list), and every emitted chunk region's
size is the declared 4-byte big-endian data length at its offset plus the
fixed 12-byte length+type+CRC overhead. -/
theorem parsePNG_walk_spec (buffer : List Nat) (fileName : JSString)
    (isDarkMode : Bool) :
    (∀ r ∈ (parsePNG buffer fileName isDarkMode).regions,
        r.rtype = RegionType.PNG_CHUNK → r.size = 12 + u32be buffer r.offset)
    ∧ (∀ l₁ r l₂, (parsePNG buffer fileName isDarkMode).regions = l₁ ++ r :: l₂ →
        r.name = jstr "Chunk: IEND" → l₂ = []) := by
  have hreg : (parsePNG buffer fileName isDarkMode).regions =
      Region.mk (jstr "PNG Signature") 0 8 .IMAGE_HEADER none
        (some (.str (jstr "89 50 4E 47 0D 0A 1A 0A")))
        (if isDarkMode then DARK_COLORS else COLORS).IMAGE_HEADER none none ::
      pngChunkLoop buffer (if isDarkMode then DARK_COLORS else COLORS)
        (buffer.length + 1) 8 := rfl
  constructor
  · intro r hr htype
    rw [hreg] at hr
    rcases List.mem_cons.mp hr with hr | hr
    · subst hr
      simp at htype
    · exact (pngChunkLoop_chunk_size buffer _ _ 8 r hr).2
  · intro l₁ r l₂ heq hname
    rw [hreg] at heq
    cases l₁ with
    | nil =>
      simp only [List.nil_append, List.cons.injEq] at heq
      obtain ⟨h1, -⟩ := heq
      rw [← h1] at hname
      simp only [Region.name] at hname
      exact absurd hname (by decide)
    | cons a t =>
      simp only [List.cons_append, List.cons.injEq] at heq
      exact pngChunkLoop_iend_last buffer _ _ 8 t r l₂ heq.2 hname

/-- Minimal PNG for the C9 witness: signature then a bare `IEND` chunk. -/
def pngC9 : List Nat :=
  [137, 80, 78, 71, 13, 10, 26, 10, 0, 0, 0, 0, 73, 69, 78, 68, 0, 0, 0, 0]

def pngC9Regions : List Region := (parsePNG pngC9 [] true).regions

/-- Witness for C9: on the minimal PNG, the `IEND` chunk region at index 1
has size `12 + 0` and nothing follows it. -/
theorem parsePNG_walk_spec_witness :
    (pngC9Regions.get ⟨1, by decide⟩).size =
        12 + u32be pngC9 (pngC9Regions.get ⟨1, by decide⟩).offset ∧
      List.drop 2 pngC9Regions = [] :=
  ⟨(parsePNG_walk_spec pngC9 [] true).1 (pngC9Regions.get ⟨1, by decide⟩)
      (List.get_mem pngC9Regions 1 (by decide)) (by decide),
   (parsePNG_walk_spec pngC9 [] true).2 (pngC9Regions.take 1)
      (pngC9Regions.get ⟨1, by decide⟩) (pngC9Regions.drop 2) (by rfl) (by decide)⟩

/-- Insertion of `a` into a sorted list, before the first element not below
it — the building block of `stableSort`. -/
def sortInsert {α : Type} (le : α → α → Bool) (a : α) : List α → List α
  | [] => [a]
  | b :: l => if le a b then a :: b :: l else b :: sortInsert le a l

/-- A stable sort (equal keys keep their original order), modelling
JavaScript's `Array.prototype.sort` with a numeric comparator, whose
stability ES2019 guarantees. -/
def stableSort {α : Type} (le : α → α → Bool) : List α → List α
  | [] => []
  | a :: l => sortInsert le a (stableSort le l)

/-! ## PE parser (`peParser.ts`) -/

/-- The `MACHINE_TYPES` lookup table. -/
def MACHINE_TYPES : List (Nat × JSString) :=
  [(0x014c, jstr "Intel 386 (x86)"), (0x8664, jstr "AMD64 (x64)"),
   (0x0200, jstr "Intel Itanium"), (0xaa64, jstr "ARM64"),
   (0x01c0, jstr "ARM Thumb-2")]

/-- The `FILE_CHARACTERISTICS` map (keys ascending, the order `Object.keys` yields). -/
def FILE_CHARACTERISTICS : List (Nat × JSString) :=
  [(0x0001, jstr "RELOCS_STRIPPED"), (0x0002, jstr "EXECUTABLE_IMAGE"),
   (0x0004, jstr "LINE_NUMS_STRIPPED"), (0x0008, jstr "LOCAL_SYMS_STRIPPED"),
   (0x0010, jstr "AGGRESSIVE_WS_TRIM"), (0x0020, jstr "LARGE_ADDRESS_AWARE"),
   (0x0080, jstr "BYTES_REVERSED_LO"), (0x0100, jstr "32BIT_MACHINE"),
   (0x0200, jstr "DEBUG_STRIPPED"), (0x0400, jstr "REMOVABLE_RUN_FROM_SWAP"),
   (0x0800, jstr "NET_RUN_FROM_SWAP"), (0x1000, jstr "SYSTEM"),
   (0x2000, jstr "DLL"), (0x4000, jstr "UP_SYSTEM_ONLY"),
   (0x8000, jstr "BYTES_REVERSED_HI")]

def DLL_CHARACTERISTICS : List (Nat × JSString) :=
  [(0x0020, jstr "HIGH_ENTROPY_VA"), (0x0040, jstr "DYNAMIC_BASE"),
   (0x0080, jstr "FORCE_INTEGRITY"), (0x0100, jstr "NX_COMPAT"),
   (0x0200, jstr "NO_ISOLATION"), (0x0400, jstr "NO_SEH"),
   (0x0800, jstr "NO_BIND"), (0x1000, jstr "APPCONTAINER"),
   (0x2000, jstr "WDM_DRIVER"), (0x4000, jstr "GUARD_CF"),
   (0x8000, jstr "TERMINAL_SERVER_AWARE")]

def SUBSYSTEMS : List (Nat × JSString) :=
  [(1, jstr "NATIVE"), (2, jstr "WINDOWS_GUI"), (3, jstr "WINDOWS_CUI"),
   (5, jstr "OS2_CUI"), (7, jstr "POSIX_CUI"), (9, jstr "WINDOWS_CE_GUI"),
   (10, jstr "EFI_APPLICATION"), (11, jstr "EFI_BOOT_SERVICE_DRIVER"),
   (12, jstr "EFI_RUNTIME_DRIVER"), (13, jstr "EFI_ROM"), (14, jstr "XBOX"),
   (16, jstr "WINDOWS_BOOT_APPLICATION")]

/-- The PE parser's own `readString`: unbounded reads (each `getUint8` may
raise `RangeError`), stopping at a NUL or after `length` bytes. -/
def readStringPE (view : List Nat) (offset : Nat) : Nat → Except JSError JSString
  | 0 => .ok []
  | n + 1 => do
    let charCode ← dvGetUint8 view offset
    if charCode = 0 then return []
    else
      let rest ← readStringPE view (offset + 1) n
      return charCode :: rest

/-- The `getFlags` helper: collects the names of all fully-set mask bits (keys in the
ascending numeric order `Object.keys` iterates), comma-joined, `'None'` when
empty. -/
def getFlags (val : Nat) (map : List (Nat × JSString)) : JSString :=
  let flags := map.foldl
    (fun acc kv => if Nat.land val kv.1 = kv.1 then acc ++ [kv.2] else acc) []
  if flags.isEmpty then jstr "None" else List.intercalate (jstr ", ") flags

/-- Decimal digits of `n`; the fuel (first) argument only discharges
termination and is never exhausted when initialized with `n`. -/
def toDecGo : Nat → Nat → JSString
  | 0, _ => []
  | fuel + 1, n => if n = 0 then [] else toDecGo fuel (n / 10) ++ [48 + n % 10]

def toDecimal (n : Nat) : JSString := if n = 0 then [48] else toDecGo n n

def pad2 (n : Nat) : JSString := padStart (toDecimal n) 2 48

/-- Model of `new Date(ms).toISOString()` for `0 ≤ ms` (the parser always passes
`timeDateStamp * 1000`, a non-negative value): proleptic-Gregorian civil date
from days since 1970-01-01, rendered as `YYYY-MM-DDTHH:mm:ss.sssZ`. -/
def toISOString (ms : Nat) : JSString :=
  let s := ms / 1000
  let msRem := ms % 1000
  let days := s / 86400
  let secOfDay := s % 86400
  let hh := secOfDay / 3600
  let mm := secOfDay % 3600 / 60
  let ss := secOfDay % 60
  let z := days + 719468
  let era := z / 146097
  let doe := z % 146097
  let yoe := (doe - doe / 1460 + doe / 36524 - doe / 146096) / 365
  let y := yoe + era * 400
  let doy := doe - (365 * yoe + yoe / 4 - yoe / 100)
  let mp := (5 * doy + 2) / 153
  let d := doy - (153 * mp + 2) / 5 + 1
  let m := if mp < 10 then mp + 3 else mp - 9
  let y' := if m ≤ 2 then y + 1 else y
  padStart (toDecimal y') 4 48 ++ [45] ++ pad2 m ++ [45] ++ pad2 d ++ [84] ++
    pad2 hh ++ [58] ++ pad2 mm ++ [58] ++ pad2 ss ++ [46] ++
    padStart (toDecimal msRem) 3 48 ++ [90]

def dirNames : List JSString :=
  [jstr "Export", jstr "Import", jstr "Resource", jstr "Exception",
   jstr "Security", jstr "BaseReloc", jstr "Debug", jstr "Architecture",
   jstr "GlobalPtr", jstr "TLS", jstr "LoadConfig", jstr "BoundImport",
   jstr "IAT", jstr "DelayImport", jstr "COM", jstr "Reserved"]

/-- The data-directory `for` loop of `parsePE`: up to `safeNumDirs` (the
second argument) entries, breaking when an entry would cross the end of the
optional header; entries with zero RVA and size are skipped. -/
def peDataDirsLoop (view : List Nat) (palette : Palette)
    (dataDirsOffset optEnd : Nat) : Nat → Nat → Except JSError (List Region)
  | _, 0 => .ok []
  | i, rem + 1 => do
    let currentDirOffset := dataDirsOffset + i * 8
    if optEnd < currentDirOffset + 8 then
      return []
    else
      let rva ← dvGetUint32 view currentDirOffset true
      let size ← dvGetUint32 view (currentDirOffset + 4) true
      let rest ← peDataDirsLoop view palette dataDirsOffset optEnd (i + 1) rem
      if 0 < size ∨ 0 < rva then
        return Region.mk ((dirNames.getD i []) ++ jstr " Directory")
          currentDirOffset 8 .DATA_DIRECTORY none none palette.DATA_DIR
          (some [Region.mk (jstr "RVA") currentDirOffset 4 .FIELD none
                   (some (.str (formatHex rva 8))) palette.FIELD none none,
                 Region.mk (jstr "Size") (currentDirOffset + 4) 4 .FIELD none
                   (some (.str (formatHex size 8))) palette.FIELD none none])
          (some [(jstr "RVA", .str (formatHex rva 8)),
                 (jstr "Size", .str (formatHex size 8))]) :: rest
      else
        return rest

/-- The detailed Optional-Header block of `parsePE` (entered only when
`sizeOfOptionalHeader > 0`): the ordered field list followed by the Data
Directories region.  Field widths bifurcate on `is64Bit` (PE32+). -/
def peOptionalDetails (view : List Nat) (palette : Palette)
    (optHeaderOffset sizeOfOptionalHeader magic : Nat) (is64Bit : Bool) :
    Except JSError (List Region) := do
  let off := optHeaderOffset
  let majorLinker ← dvGetUint8 view (off + 2)
  let minorLinker ← dvGetUint8 view (off + 3)
  let sizeOfCode ← dvGetUint32 view (off + 4) true
  let sizeOfInit ← dvGetUint32 view (off + 8) true
  let sizeOfUninit ← dvGetUint32 view (off + 12) true
  let entryPoint ← dvGetUint32 view (off + 16) true
  let baseOfCode ← dvGetUint32 view (off + 20) true
  let fields1 : List Region :=
    [.mk (jstr "Magic") off 2 .FIELD
       (some (if is64Bit then jstr "PE32+ (64-bit)" else jstr "PE32 (32-bit)"))
       (some (.str (formatHex magic 4))) palette.FIELD none none,
     .mk (jstr "MajorLinkerVersion") (off + 2) 1 .FIELD none
       (some (.num majorLinker)) palette.FIELD none none,
     .mk (jstr "MinorLinkerVersion") (off + 3) 1 .FIELD none
       (some (.num minorLinker)) palette.FIELD none none,
     .mk (jstr "SizeOfCode") (off + 4) 4 .FIELD none
       (some (.str (formatHex sizeOfCode 0))) palette.FIELD none none,
     .mk (jstr "SizeOfInitializedData") (off + 8) 4 .FIELD none
       (some (.str (formatHex sizeOfInit 0))) palette.FIELD none none,
     .mk (jstr "SizeOfUninitializedData") (off + 12) 4 .FIELD none
       (some (.str (formatHex sizeOfUninit 0))) palette.FIELD none none,
     .mk (jstr "AddressOfEntryPoint") (off + 16) 4 .FIELD
       (some (jstr "RVA of Entry Point"))
       (some (.str (formatHex entryPoint 0))) palette.FIELD none none,
     .mk (jstr "BaseOfCode") (off + 20) 4 .FIELD none
       (some (.str (formatHex baseOfCode 0))) palette.FIELD none none]
  let off1 := off + 24
  let bodFields ← if is64Bit then pure ([] : List Region) else do
    let baseOfData ← dvGetUint32 view off1 true
    pure [Region.mk (jstr "BaseOfData") off1 4 .FIELD none
      (some (.str (formatHex baseOfData 0))) palette.FIELD none none]
  let offIB := if is64Bit then off1 else off1 + 4
  let wsz := if is64Bit then 8 else 4
  let imageBase ← if is64Bit then dvGetBigUint64 view offIB true
    else dvGetUint32 view offIB true
  let offSA := offIB + wsz
  let sectionAlignment ← dvGetUint32 view offSA true
  let fileAlignment ← dvGetUint32 view (offSA + 4) true
  let offV := offSA + 8
  let majorOS ← dvGetUint16 view offV true
  let minorOS ← dvGetUint16 view (offV + 2) true
  let majorImage ← dvGetUint16 view (offV + 4) true
  let minorImage ← dvGetUint16 view (offV + 6) true
  let majorSub ← dvGetUint16 view (offV + 8) true
  let minorSub ← dvGetUint16 view (offV + 10) true
  let offW := offV + 12
  let win32Version ← dvGetUint32 view offW true
  let sizeOfImage ← dvGetUint32 view (offW + 4) true
  let sizeOfHeaders ← dvGetUint32 view (offW + 8) true
  let checkSum ← dvGetUint32 view (offW + 12) true
  let offSub := offW + 16
  let subsystem ← dvGetUint16 view offSub true
  let dllChar ← dvGetUint16 view (offSub + 2) true
  let offStack := offSub + 4
  let stackRes ← if is64Bit then dvGetBigUint64 view offStack true
    else dvGetUint32 view offStack true
  let stackCom ← if is64Bit then dvGetBigUint64 view (offStack + wsz) true
    else dvGetUint32 view (offStack + wsz) true
  let heapRes ← if is64Bit then dvGetBigUint64 view (offStack + 2 * wsz) true
    else dvGetUint32 view (offStack + 2 * wsz) true
  let heapCom ← if is64Bit then dvGetBigUint64 view (offStack + 3 * wsz) true
    else dvGetUint32 view (offStack + 3 * wsz) true
  let offLF := offStack + 4 * wsz
  let loaderFlags ← dvGetUint32 view offLF true
  let numberOfRvaAndSizes ← dvGetUint32 view (offLF + 4) true
  let fields : List Region := fields1 ++ bodFields ++
    [.mk (jstr "ImageBase") offIB wsz .FIELD (some (jstr "Preferred load address"))
       (some (.str (jstr "0x" ++ toHexUpper imageBase))) palette.FIELD none none,
     .mk (jstr "SectionAlignment") offSA 4 .FIELD (some (jstr "Alignment in memory"))
       (some (.str (formatHex sectionAlignment 0))) palette.FIELD none none,
     .mk (jstr "FileAlignment") (offSA + 4) 4 .FIELD (some (jstr "Alignment on disk"))
       (some (.str (formatHex fileAlignment 0))) palette.FIELD none none,
     .mk (jstr "MajorOSVersion") offV 2 .FIELD none (some (.num majorOS))
       palette.FIELD none none,
     .mk (jstr "MinorOSVersion") (offV + 2) 2 .FIELD none (some (.num minorOS))
       palette.FIELD none none,
     .mk (jstr "MajorImageVersion") (offV + 4) 2 .FIELD none (some (.num majorImage))
       palette.FIELD none none,
     .mk (jstr "MinorImageVersion") (offV + 6) 2 .FIELD none (some (.num minorImage))
       palette.FIELD none none,
     .mk (jstr "MajorSubsystemVersion") (offV + 8) 2 .FIELD none (some (.num majorSub))
       palette.FIELD none none,
     .mk (jstr "MinorSubsystemVersion") (offV + 10) 2 .FIELD none (some (.num minorSub))
       palette.FIELD none none,
     .mk (jstr "Win32VersionValue") offW 4 .FIELD none (some (.num win32Version))
       palette.FIELD none none,
     .mk (jstr "SizeOfImage") (offW + 4) 4 .FIELD none
       (some (.str (formatHex sizeOfImage 0))) palette.FIELD none none,
     .mk (jstr "SizeOfHeaders") (offW + 8) 4 .FIELD none
       (some (.str (formatHex sizeOfHeaders 0))) palette.FIELD none none,
     .mk (jstr "CheckSum") (offW + 12) 4 .FIELD none
       (some (.str (formatHex checkSum 0))) palette.FIELD none none,
     .mk (jstr "Subsystem") offSub 2 .FIELD
       (some ((SUBSYSTEMS.lookup subsystem).getD (jstr "Unknown")))
       (some (.str (formatHex subsystem 4))) palette.FIELD none none,
     .mk (jstr "DllCharacteristics") (offSub + 2) 2 .FIELD
       (some (getFlags dllChar DLL_CHARACTERISTICS))
       (some (.str (formatHex dllChar 4))) palette.FIELD none none,
     .mk (jstr "SizeOfStackReserve") offStack wsz .FIELD none
       (some (.str (jstr "0x" ++ toHexLower stackRes))) palette.FIELD none none,
     .mk (jstr "SizeOfStackCommit") (offStack + wsz) wsz .FIELD none
       (some (.str (jstr "0x" ++ toHexLower stackCom))) palette.FIELD none none,
     .mk (jstr "SizeOfHeapReserve") (offStack + 2 * wsz) wsz .FIELD none
       (some (.str (jstr "0x" ++ toHexLower heapRes))) palette.FIELD none none,
     .mk (jstr "SizeOfHeapCommit") (offStack + 3 * wsz) wsz .FIELD none
       (some (.str (jstr "0x" ++ toHexLower heapCom))) palette.FIELD none none,
     .mk (jstr "LoaderFlags") offLF 4 .FIELD none
       (some (.str (formatHex loaderFlags 0))) palette.FIELD none none,
     .mk (jstr "NumberOfRvaAndSizes") (offLF + 4) 4 .FIELD none
       (some (.num numberOfRvaAndSizes)) palette.FIELD none none]
  let dataDirsOffset := offLF + 8
  let safeNumDirs := min numberOfRvaAndSizes 16
  let dirChildren ← peDataDirsLoop view palette dataDirsOffset
    (optHeaderOffset + sizeOfOptionalHeader) 0 safeNumDirs
  let dataDirsRegion := Region.mk (jstr "Data Directories") dataDirsOffset
    (safeNumDirs * 8) .DATA_DIRECTORY none none palette.DATA_DIR
    (some dirChildren) none
  return fields ++ [dataDirsRegion]

/-- The section-header `for` loop of `parsePE`: header regions, metadata and
(clamped) raw-data regions, one triple per declared section.  Note there is
no bounds guard: reads past the buffer raise `RangeError`. -/
def peSectionsLoop (view : List Nat) (palette : Palette)
    (sectionHeadersOffset bufLen : Nat) :
    Nat → Nat → Except JSError (List Region × List SectionMetadata × List Region)
  | _, 0 => .ok ([], [], [])
  | i, rem + 1 => do
    let offset := sectionHeadersOffset + i * 40
    let name ← readStringPE view offset 8
    let virtualSize ← dvGetUint32 view (offset + 8) true
    let virtualAddress ← dvGetUint32 view (offset + 12) true
    let sizeOfRawData ← dvGetUint32 view (offset + 16) true
    let pointerToRawData ← dvGetUint32 view (offset + 20) true
    let headerRegion := Region.mk (jstr "Header: " ++ name) offset 40
      .SECTION_HEADER none none palette.SECTION_HEADER none
      (some [(jstr "Name", .str name),
             (jstr "VirtualSize", .str (formatHex virtualSize 8)),
             (jstr "VirtualAddress", .str (formatHex virtualAddress 8)),
             (jstr "RawSize", .str (formatHex sizeOfRawData 8)),
             (jstr "RawPtr", .str (formatHex pointerToRawData 8))])
    let dataRegions : List Region :=
      if 0 < sizeOfRawData ∧ 0 < pointerToRawData ∧ pointerToRawData < bufLen then
        [Region.mk (jstr "Section: " ++ name) pointerToRawData
          (min sizeOfRawData (bufLen - pointerToRawData)) .SECTION_DATA
          (some (jstr "Raw data for section " ++ name)) none
          palette.SECTION_DATA none none]
      else []
    let rest ← peSectionsLoop view palette sectionHeadersOffset bufLen (i + 1) rem
    return (headerRegion :: rest.1,
      (⟨name, virtualAddress, virtualSize, pointerToRawData, sizeOfRawData⟩ :
        SectionMetadata) :: rest.2.1,
      dataRegions ++ rest.2.2)

/-- The `parsePE` function from `peParser.ts`.  May raise `RangeError` through unguarded
`DataView` reads (there is no try/catch in the source function). -/
def parsePE (buffer : List Nat) (fileName : JSString) (isDarkMode : Bool) :
    Except JSError ParsedFile := do
  let view := buffer
  let palette := if isDarkMode then DARK_COLORS else COLORS
  if view.length < 64 then
    return { name := fileName, size := buffer.length, data := view, regions := [],
             sectionsMetadata := [], isValid := false,
             error := some (jstr "File too small"), format := jstr "PE" }
  let e_magic ← dvGetUint16 view 0 true
  if e_magic ≠ 0x5A4D then
    return { name := fileName, size := buffer.length, data := view, regions := [],
             sectionsMetadata := [], isValid := false,
             error := some (jstr "Invalid DOS signature (not MZ)"), format := jstr "PE" }
  let e_lfanew ← dvGetUint32 view 0x3C true
  let dosHeaderRegion := Region.mk (jstr "DOS Header") 0 64 .DOS_HEADER
    (some (jstr "Legacy DOS Header")) none palette.DOS none
    (some [(jstr "e_magic", .str (formatHex e_magic 4)),
           (jstr "e_lfanew", .str (formatHex e_lfanew 8))])
  if view.length < e_lfanew + 4 then
    return { name := fileName, size := buffer.length, data := view,
             regions := [dosHeaderRegion], sectionsMetadata := [], isValid := false,
             error := some (jstr "Invalid PE offset"), format := jstr "PE" }
  let signature ← dvGetUint32 view e_lfanew true
  if signature ≠ 0x00004550 then
    return { name := fileName, size := buffer.length, data := view,
             regions := [dosHeaderRegion], sectionsMetadata := [], isValid := false,
             error := some (jstr "Invalid PE signature"), format := jstr "PE" }
  let signatureRegion := Region.mk (jstr "Signature") e_lfanew 4 .FIELD none
    (some (.str (jstr "PE\\0\\0"))) palette.FIELD none none
  let fileHeaderOffset := e_lfanew + 4
  let machine ← dvGetUint16 view fileHeaderOffset true
  let numberOfSections ← dvGetUint16 view (fileHeaderOffset + 2) true
  let timeDateStamp ← dvGetUint32 view (fileHeaderOffset + 4) true
  let pointerToSymbolTable ← dvGetUint32 view (fileHeaderOffset + 8) true
  let numberOfSymbols ← dvGetUint32 view (fileHeaderOffset + 12) true
  let sizeOfOptionalHeader ← dvGetUint16 view (fileHeaderOffset + 16) true
  let characteristics ← dvGetUint16 view (fileHeaderOffset + 18) true
  let fileHeaderRegion := Region.mk (jstr "File Header") fileHeaderOffset 20
    .FILE_HEADER none none palette.NT
    (some [.mk (jstr "Machine") fileHeaderOffset 2 .FIELD
             (some ((MACHINE_TYPES.lookup machine).getD (jstr "Unknown")))
             (some (.str (formatHex machine 4))) palette.FIELD none none,
           .mk (jstr "NumberOfSections") (fileHeaderOffset + 2) 2 .FIELD
             (some (jstr "Number of Sections"))
             (some (.num numberOfSections)) palette.FIELD none none,
           .mk (jstr "TimeDateStamp") (fileHeaderOffset + 4) 4 .FIELD
             (some (toISOString (timeDateStamp * 1000)))
             (some (.str (formatHex timeDateStamp 8))) palette.FIELD none none,
           .mk (jstr "PointerToSymbolTable") (fileHeaderOffset + 8) 4 .FIELD
             (some (jstr "Offset to COFF symbol table"))
             (some (.str (formatHex pointerToSymbolTable 8))) palette.FIELD none none,
           .mk (jstr "NumberOfSymbols") (fileHeaderOffset + 12) 4 .FIELD
             (some (jstr "Number of symbols"))
             (some (.num numberOfSymbols)) palette.FIELD none none,
           .mk (jstr "SizeOfOptionalHeader") (fileHeaderOffset + 16) 2 .FIELD
             (some (jstr "Size of the Optional Header"))
             (some (.num sizeOfOptionalHeader)) palette.FIELD none none,
           .mk (jstr "Characteristics") (fileHeaderOffset + 18) 2 .FIELD
             (some (getFlags characteristics FILE_CHARACTERISTICS))
             (some (.str (formatHex characteristics 4))) palette.FIELD none none])
    (some [(jstr "Machine", .str (formatHex machine 4)),
           (jstr "NumberOfSections", .num numberOfSections),
           (jstr "Characteristics", .str (formatHex characteristics 4))])
  let optHeaderOffset := fileHeaderOffset + 20
  let magic ← if 0 < sizeOfOptionalHeader then dvGetUint16 view optHeaderOffset true
    else pure 0
  let is64Bit := magic = 0x20b
  let optChildren ← if 0 < sizeOfOptionalHeader then
      peOptionalDetails view palette optHeaderOffset sizeOfOptionalHeader magic is64Bit
    else pure []
  let optionalHeaderRegion := Region.mk (jstr "Optional Header") optHeaderOffset
    sizeOfOptionalHeader .OPTIONAL_HEADER none none palette.OPTIONAL
    (some optChildren) (some [(jstr "Magic", .str (formatHex magic 4))])
  let ntHeadersRegion := Region.mk (jstr "NT Headers") e_lfanew
    (4 + 20 + sizeOfOptionalHeader) .NT_HEADERS none none palette.NT
    (some [signatureRegion, fileHeaderRegion, optionalHeaderRegion]) none
  let sectionHeadersOffset := optHeaderOffset + sizeOfOptionalHeader
  let secs ← peSectionsLoop view palette sectionHeadersOffset buffer.length
    0 numberOfSections
  let sectionHeadersRegion := Region.mk (jstr "Section Headers")
    sectionHeadersOffset (numberOfSections * 40) .SECTION_HEADER none none
    palette.SECTION_HEADER (some secs.1) none
  let sortedData := stableSort (fun a b => decide (a.offset ≤ b.offset)) secs.2.2
  let regions1 := [dosHeaderRegion, ntHeadersRegion, sectionHeadersRegion] ++ sortedData
  let endOfLastRegion := match regions1.getLast? with
    | some r => r.offset + r.size
    | none => 0
  let regions2 := if endOfLastRegion < buffer.length then
      regions1 ++ [Region.mk (jstr "Overlay / EOF") endOfLastRegion
        (buffer.length - endOfLastRegion) .OVERLAY
        (some (jstr "Data appended to the end of the PE file (not mapped)"))
        none palette.OVERLAY none none]
    else regions1
  return { name := fileName, size := buffer.length, data := view,
           regions := regions2, sectionsMetadata := secs.2.1, isValid := true,
           format := jstr "PE" }

/-! ## C2: the parse boundary can throw -/

/-- A 64-byte buffer that passes the DOS and PE-signature checks
(`MZ` at 0, `e_lfanew = 56` pointing at `PE\0\0`) but whose File Header
extends past the buffer, so the `TimeDateStamp` read at offset 64 is out of
bounds. -/
def peC2Buf : List Nat := [77, 90] ++ List.replicate 54 0 ++ [80, 69, 0, 0, 56, 0, 0, 0]

/-- C2 (code bug): `parsePE` throws a `RangeError` (out-of-bounds `DataView`
read, with no try/catch in the source function) instead of returning an
`isValid:false` `ParsedFile`. -/
theorem parsePE_throws_rangeError : parsePE peC2Buf [] true = .error .rangeErr := by
  rfl

/-! ## C8: format-detector fallback -/

/-- The parser each buffer is dispatched to. -/
inductive DispatchTarget where
  | pe | elf | machO
deriving DecidableEq

def isMachOMagic (magic : Nat) : Bool :=
  magic = 0xFEEDFACE ∨ magic = 0xCEFAEDFE ∨ magic = 0xFEEDFACF ∨ magic = 0xCFFAEDFE ∨
  magic = 0xCAFEBABE ∨ magic = 0xBEBAFECA ∨ magic = 0xCAFEBABF ∨ magic = 0xBFBAFECA

/-- The format-detection block of `handleFile`: magic sniffing over the first
four bytes, with both the unrecognized-magic case and the under-4-byte case
falling back to the PE parser. -/
def detectDispatch (bytes : List Nat) : DispatchTarget :=
  if 4 ≤ bytes.length then
    let magic := u32be bytes 0
    if u16le bytes 0 = 0x5A4D then .pe
    else if u8 bytes 0 = 0x7F ∧ u8 bytes 1 = 0x45 ∧ u8 bytes 2 = 0x4C ∧
        u8 bytes 3 = 0x46 then .elf
    else if isMachOMagic magic then .machO
    else .pe
  else .pe

theorem exceptOk_bind {α β : Type} (a : α) (f : α → Except JSError β) :
    (Except.ok a : Except JSError α) >>= f = f a := rfl

theorem exceptPure_bind {α β : Type} (a : α) (f : α → Except JSError β) :
    (pure a : Except JSError α) >>= f = f a := rfl

theorem parsePE_small (bytes : List Nat) (fileName : JSString) (isDarkMode : Bool)
    (h : bytes.length < 64) :
    parsePE bytes fileName isDarkMode = .ok
      { name := fileName, size := bytes.length, data := bytes, regions := [],
        sectionsMetadata := [], isValid := false,
        error := some (jstr "File too small"), format := jstr "PE" } := by
  unfold parsePE
  rw [if_pos h]
  rfl

theorem parsePE_not_mz (bytes : List Nat) (fileName : JSString) (isDarkMode : Bool)
    (h64 : 64 ≤ bytes.length) (hmz : u16le bytes 0 ≠ 0x5A4D) :
    parsePE bytes fileName isDarkMode = .ok
      { name := fileName, size := bytes.length, data := bytes, regions := [],
        sectionsMetadata := [], isValid := false,
        error := some (jstr "Invalid DOS signature (not MZ)"), format := jstr "PE" } := by
  have h2 : dvGetUint16 bytes 0 true = Except.ok (u16le bytes 0) := by
    unfold dvGetUint16
    rw [if_pos (show 0 + 2 ≤ bytes.length by omega)]
    rfl
  unfold parsePE
  rw [if_neg (show ¬ bytes.length < 64 by omega)]
  simp only [h2, exceptOk_bind, exceptPure_bind]
  rw [if_pos hmz]
  rfl

/-- C8: a buffer whose first four bytes match no recognized magic (not `MZ`,
not ELF, none of the eight Mach-O/Fat magics), or a buffer shorter than 4
bytes, is dispatched to the PE parser, which returns (never throws) an
`isValid:false` `ParsedFile` with a non-empty error string. -/
theorem detect_fallback_invalid (bytes : List Nat) (fileName : JSString)
    (isDarkMode : Bool)
    (h : bytes.length < 4 ∨
      (u16le bytes 0 ≠ 0x5A4D ∧
       ¬(u8 bytes 0 = 0x7F ∧ u8 bytes 1 = 0x45 ∧ u8 bytes 2 = 0x4C ∧
         u8 bytes 3 = 0x46) ∧
       isMachOMagic (u32be bytes 0) = false)) :
    detectDispatch bytes = .pe ∧
      ∃ pf, parsePE bytes fileName isDarkMode = .ok pf ∧ pf.isValid = false ∧
        ∃ msg, pf.error = some msg ∧ msg ≠ [] := by
  constructor
  · unfold detectDispatch
    rcases h with h | ⟨h1, h2, h3⟩
    · rw [if_neg (by omega)]
    · by_cases hlen : 4 ≤ bytes.length
      · rw [if_pos hlen]
        simp only []
        rw [if_neg h1, if_neg h2, if_neg (by simp [h3])]
      · rw [if_neg hlen]
  · by_cases hlen : bytes.length < 64
    · exact ⟨_, parsePE_small bytes fileName isDarkMode hlen, rfl,
        jstr "File too small", rfl, by decide⟩
    · rcases h with h | ⟨h1, -, -⟩
      · omega
      · exact ⟨_, parsePE_not_mz bytes fileName isDarkMode (by omega) h1, rfl,
          jstr "Invalid DOS signature (not MZ)", rfl, by decide⟩

/-- Witness for C8 at the 4-byte all-zero buffer. -/
theorem detect_fallback_invalid_witness :
    detectDispatch [0, 0, 0, 0] = .pe ∧
      ∃ pf, parsePE [0, 0, 0, 0] [] true = .ok pf ∧ pf.isValid = false ∧
        ∃ msg, pf.error = some msg ∧ msg ≠ [] :=
  detect_fallback_invalid [0, 0, 0, 0] [] true
    (Or.inr ⟨by decide, by decide, by decide⟩)

/-! ## Mach-O parser (`machOParser.ts`) -/

def LC_TYPES : List (Nat × JSString) :=
  [(0x1, jstr "LC_SEGMENT"), (0x2, jstr "LC_SYMTAB"), (0x3, jstr "LC_SYMSEG"),
   (0x4, jstr "LC_THREAD"), (0x5, jstr "LC_UNIXTHREAD"), (0x6, jstr "LC_LOADFVMLIB"),
   (0x7, jstr "LC_IDFVMLIB"), (0x8, jstr "LC_IDENT"), (0x9, jstr "LC_FVMFILE"),
   (0xa, jstr "LC_PREPAGE"), (0xb, jstr "LC_DYSYMTAB"), (0xc, jstr "LC_LOAD_DYLIB"),
   (0xd, jstr "LC_ID_DYLIB"), (0xe, jstr "LC_LOAD_DYLINKER"), (0xf, jstr "LC_ID_DYLINKER"),
   (0x10, jstr "LC_PREBOUND_DYLIB"), (0x11, jstr "LC_ROUTINES"),
   (0x12, jstr "LC_SUB_FRAMEWORK"), (0x13, jstr "LC_SUB_UMBRELLA"),
   (0x14, jstr "LC_SUB_CLIENT"), (0x15, jstr "LC_SUB_LIBRARY"),
   (0x16, jstr "LC_TWOLEVEL_HINTS"), (0x17, jstr "LC_PREBIND_CKSUM"),
   (0x18, jstr "LC_LOAD_WEAK_DYLIB"), (0x19, jstr "LC_SEGMENT_64"),
   (0x1a, jstr "LC_ROUTINES_64"), (0x1b, jstr "LC_UUID"), (0x1c, jstr "LC_RPATH"),
   (0x1d, jstr "LC_CODE_SIGNATURE"), (0x1e, jstr "LC_SEGMENT_SPLIT_INFO"),
   (0x1f, jstr "LC_REEXPORT_DYLIB"), (0x20, jstr "LC_LAZY_LOAD_DYLIB"),
   (0x21, jstr "LC_ENCRYPTION_INFO"), (0x22, jstr "LC_DYLD_INFO"),
   (0x80000022, jstr "LC_DYLD_INFO_ONLY"), (0x23, jstr "LC_LOAD_UPWARD_DYLIB"),
   (0x24, jstr "LC_VERSION_MIN_MACOSX"), (0x25, jstr "LC_VERSION_MIN_IPHONEOS"),
   (0x26, jstr "LC_FUNCTION_STARTS"), (0x27, jstr "LC_DYLD_ENVIRONMENT"),
   (0x28, jstr "LC_MAIN"), (0x29, jstr "LC_DATA_IN_CODE"),
   (0x2A, jstr "LC_SOURCE_VERSION"), (0x2B, jstr "LC_DYLIB_CODE_SIGN_DRS"),
   (0x2C, jstr "LC_ENCRYPTION_INFO_64"), (0x2D, jstr "LC_LINKER_OPTION"),
   (0x2E, jstr "LC_LINKER_OPTIMIZATION_HINT"), (0x32, jstr "LC_BUILD_VERSION")]

def CPU_TYPES : List (Int × JSString) :=
  [(7, jstr "x86"), (0x1000007, jstr "x86_64"), (12, jstr "ARM"),
   (0x100000C, jstr "ARM64")]

/-- The `formatHex` template applied to a (possibly negative) `getInt32` value:
`'0x' + v.toString(16).toUpperCase()` with no padding. -/
def formatHexInt (i : Int) : JSString :=
  jstr "0x" ++ (if i < 0 then [45] ++ toHexUpper i.natAbs else toHexUpper i.toNat)

/-- The Mach-O parser's `readString` (identical to the PE parser's unclamped
NUL-terminated helper; each byte read may raise `RangeError`). -/
def readStringMachO : List Nat → Nat → Nat → Except JSError JSString := readStringPE

/-- The section-header loop inside an `LC_SEGMENT`/`LC_SEGMENT_64` command:
one header region and one metadata entry per section, breaking (keeping
earlier entries) when a header would cross the buffer end.  Section file
offsets are rebased by the slice offset (`absoluteSectionOffset`). -/
def machOSectLoop (view : List Nat) (palette : Palette) (pfx : JSString)
    (sliceOffset : Nat) (isSeg64 isLE : Bool) :
    Nat → Nat → Except JSError (List Region × List SectionMetadata)
  | _, 0 => .ok ([], [])
  | sectOffset, s + 1 => do
    let sectionHeaderSize := if isSeg64 then 80 else 68
    if view.length < sectOffset + sectionHeaderSize then return ([], [])
    let sName ← readStringMachO view sectOffset 16
    let segNameRef ← readStringMachO view (sectOffset + 16) 16
    let sAddr ← if isSeg64 then dvGetBigUint64 view (sectOffset + 32) isLE
      else dvGetUint32 view (sectOffset + 32) isLE
    let sSize ← if isSeg64 then dvGetBigUint64 view (sectOffset + 40) isLE
      else dvGetUint32 view (sectOffset + 36) isLE
    let sOffset ← dvGetUint32 view (sectOffset + (if isSeg64 then 48 else 40)) isLE
    let absoluteSectionOffset := sliceOffset + sOffset
    let hdrRegion := Region.mk (jstr "Section: " ++ sName) sectOffset sectionHeaderSize
      .SECTION_HEADER none none palette.SECTION_HEADER none
      (some [(jstr "Name", .str sName), (jstr "Segment", .str segNameRef),
             (jstr "Address", .str (formatHex sAddr 0)),
             (jstr "Size", .str (formatHex sSize 0)),
             (jstr "Offset", .str (formatHex sOffset 0)),
             (jstr "RealOffset", .str (formatHex absoluteSectionOffset 0))])
    let meta : SectionMetadata :=
      ⟨pfx ++ segNameRef ++ [46] ++ sName, sAddr, sSize, absoluteSectionOffset, sSize⟩
    let rest ← machOSectLoop view palette pfx sliceOffset isSeg64 isLE
      (sectOffset + sectionHeaderSize) s
    return (hdrRegion :: rest.1, meta :: rest.2)

/-- The load-command walk of `parseMachOAtOffset`: up to `nCmds` commands,
each advancing by its self-declared `cmdsize`; a command header crossing the
buffer truncates the walk, keeping earlier commands.  Returns the
load-command child regions, the segment data regions pushed directly to the
slice's region list, and the collected section metadata. -/
def machOCmdLoop (view : List Nat) (palette : Palette) (pfx : JSString)
    (sliceOffset headerSize sizeofCmds : Nat) (isLE : Bool) (cpuName : JSString) :
    Nat → Nat → Except JSError (List Region × List Region × List SectionMetadata)
  | _, 0 => .ok ([], [], [])
  | currentCmdOffset, n + 1 => do
    if view.length < currentCmdOffset + 8 then return ([], [], [])
    let cmd ← dvGetUint32 view currentCmdOffset isLE
    let cmdSize ← dvGetUint32 view (currentCmdOffset + 4) isLE
    let cmdName := (LC_TYPES.lookup cmd).getD (formatHex cmd 0)
    let segInfo ← if cmd = 0x1 ∨ cmd = 0x19 then do
        let isSeg64 := cmd = 0x19
        if currentCmdOffset + (if isSeg64 then 72 else 56) ≤ view.length then do
          let segName ← readStringMachO view (currentCmdOffset + 8) 16
          let vmAddr ← if isSeg64 then dvGetBigUint64 view (currentCmdOffset + 24) isLE
            else dvGetUint32 view (currentCmdOffset + 24) isLE
          let vmSize ← if isSeg64 then dvGetBigUint64 view (currentCmdOffset + 32) isLE
            else dvGetUint32 view (currentCmdOffset + 28) isLE
          let fileOff ← if isSeg64 then dvGetBigUint64 view (currentCmdOffset + 40) isLE
            else dvGetUint32 view (currentCmdOffset + 32) isLE
          let fileSize ← if isSeg64 then dvGetBigUint64 view (currentCmdOffset + 48) isLE
            else dvGetUint32 view (currentCmdOffset + 36) isLE
          let nSects ← dvGetUint32 view
            (currentCmdOffset + (if isSeg64 then 64 else 48)) isLE
          let sects ← machOSectLoop view palette pfx sliceOffset isSeg64 isLE
            (currentCmdOffset + (if isSeg64 then 72 else 56)) nSects
          let absoluteSegmentOffset := sliceOffset + fileOff
          let segRegions : List Region :=
            if 0 < fileSize ∧ absoluteSegmentOffset + fileSize ≤ view.length then
              if headerSize + sizeofCmds ≤ fileOff then
                [Region.mk (pfx ++ jstr "Segment: " ++ segName) absoluteSegmentOffset
                  fileSize .SEGMENT
                  (some (jstr "Data for " ++ segName ++ jstr " (" ++ cpuName ++ jstr ")"))
                  none palette.SEGMENT none none]
              else []
            else []
          pure (some (segName, nSects, vmAddr, fileOff, sects.1, sects.2, segRegions))
        else pure none
      else pure none
    let mainInfo ← if cmd = 0x80000028 then do
        let entryOffset ← dvGetBigUint64 view (currentCmdOffset + 8) isLE
        pure (some entryOffset)
      else pure none
    let cmdDetails : List (JSString × JSValue) :=
      [(jstr "Command", .str (formatHex cmd 0)), (jstr "Size", .num cmdSize)] ++
      (match segInfo with
       | some (segName, nSects, vmAddr, fileOff, _, _, _) =>
         [(jstr "SegmentName", .str segName), (jstr "NSects", .num nSects),
          (jstr "VMAddr", .str (formatHex vmAddr 0)),
          (jstr "FileOff", .str (formatHex fileOff 0))]
       | none => []) ++
      (match mainInfo with
       | some entryOffset => [(jstr "EntryOffset", .str (formatHex entryOffset 0))]
       | none => [])
    let cmdRegion := Region.mk cmdName currentCmdOffset cmdSize .LOAD_COMMAND
      none none palette.LOAD_COMMAND
      (some ([Region.mk (jstr "Command") currentCmdOffset 4 .FIELD (some cmdName)
                (some (.str (formatHex cmd 0))) palette.FIELD none none,
              Region.mk (jstr "CmdSize") (currentCmdOffset + 4) 4 .FIELD none
                (some (.num cmdSize)) palette.FIELD none none] ++
             (match segInfo with
              | some (_, _, _, _, sectRegions, _, _) => sectRegions
              | none => [])))
      (some cmdDetails)
    let rest ← machOCmdLoop view palette pfx sliceOffset headerSize sizeofCmds isLE
      cpuName (currentCmdOffset + cmdSize) n
    return (cmdRegion :: rest.1,
      (match segInfo with
       | some (_, _, _, _, _, _, segRegions) => segRegions
       | none => []) ++ rest.2.1,
      (match segInfo with
       | some (_, _, _, _, _, sectMetas, _) => sectMetas
       | none => []) ++ rest.2.2)

/-- The single-slice body of `parseMachOAtOffset` once magic, endianness and
word size are known: header region, load-command walk, segment data regions,
trailing Load Commands region. -/
def parseMachOBody (view : List Nat) (offset : Nat) (palette : Palette)
    (pfx : JSString) (isLE is64 : Bool) (magic : Nat) :
    Except JSError (List Region × List SectionMetadata) := do
  let headerSize := if is64 then 32 else 28
  if view.length < offset + headerSize then return ([], [])
  let cpuType ← dvGetInt32 view (offset + 4) isLE
  let cpuSubtype ← dvGetInt32 view (offset + 8) isLE
  let fileType ← dvGetUint32 view (offset + 12) isLE
  let nCmds ← dvGetUint32 view (offset + 16) isLE
  let sizeofCmds ← dvGetUint32 view (offset + 20) isLE
  let flags ← dvGetUint32 view (offset + 24) isLE
  let cpuName := (CPU_TYPES.lookup cpuType).getD (formatHexInt cpuType)
  let headerRegion := Region.mk (pfx ++ jstr "Mach-O Header") offset headerSize
    .MACHO_HEADER
    (some ((if is64 then jstr "64-bit" else jstr "32-bit") ++ jstr " Mach-O (" ++
      cpuName ++ jstr ", " ++ (if isLE then jstr "LE" else jstr "BE") ++ jstr ")"))
    none palette.MACHO_HEADER none
    (some [(jstr "Magic", .str (formatHex magic 8)), (jstr "CpuType", .str cpuName),
           (jstr "FileType", .str (formatHex fileType 0)), (jstr "NCmds", .num nCmds),
           (jstr "SizeOfCmds", .num sizeofCmds),
           (jstr "Flags", .str (formatHex flags 0))])
  let cmds ← machOCmdLoop view palette pfx offset headerSize sizeofCmds isLE cpuName
    (offset + headerSize) nCmds
  let loadCommandsRegion := Region.mk (pfx ++ jstr "Load Commands")
    (offset + headerSize) sizeofCmds .LOAD_COMMAND none none palette.LOAD_COMMAND
    (some cmds.1) none
  return (headerRegion :: cmds.2.1 ++ [loadCommandsRegion], cmds.2.2)

/-- The `parseMachOAtOffset` helper from `machOParser.ts`.  `sizeLimit` (the slice's
declared size) is received but never read — exactly as in the source, whose
bounds checks all compare against `view.byteLength` instead. -/
def parseMachOAtOffset (view : List Nat) (offset sizeLimit : Nat)
    (palette : Palette) (pfx : JSString) :
    Except JSError (List Region × List SectionMetadata) := do
  if view.length < offset + 4 then return ([], [])
  let magic ← dvGetUint32 view offset false
  if magic = 0xFEEDFACE then parseMachOBody view offset palette pfx false false magic
  else if magic = 0xCEFAEDFE then parseMachOBody view offset palette pfx true false magic
  else if magic = 0xFEEDFACF then parseMachOBody view offset palette pfx false true magic
  else if magic = 0xCFFAEDFE then parseMachOBody view offset palette pfx true true magic
  else return ([], [])

/-- The `fat_arch` walk of `parseMachO`: one 20-byte Arch Def region per
declared entry (breaking on truncation); a slice whose declared range is
non-zero-based and inside the buffer is recursively parsed and wrapped in a
container `Slice:` region holding the nested regions. -/
def machOFatLoop (view : List Nat) (palette : Palette) (isLE : Bool) :
    Nat → Nat → Except JSError (List Region × List SectionMetadata)
  | _, 0 => .ok ([], [])
  | offset, i + 1 => do
    if view.length < offset + 20 then return ([], [])
    let cputype ← dvGetInt32 view offset isLE
    let cpusubtype ← dvGetInt32 view (offset + 4) isLE
    let sliceOffset ← dvGetUint32 view (offset + 8) isLE
    let sliceSize ← dvGetUint32 view (offset + 12) isLE
    let align ← dvGetUint32 view (offset + 16) isLE
    let cpuName := (CPU_TYPES.lookup cputype).getD (formatHexInt cputype)
    let archRegion := Region.mk (jstr "Arch Def: " ++ cpuName) offset 20 .FAT_HEADER
      none none palette.FAT_HEADER none
      (some [(jstr "CpuType", .str cpuName),
             (jstr "Offset", .str (formatHex sliceOffset 0)),
             (jstr "Size", .str (formatHex sliceSize 0)), (jstr "Align", .num align)])
    let sliceStuff ← if 0 < sliceOffset ∧ sliceOffset + sliceSize ≤ view.length then do
        let sliceParse ← parseMachOAtOffset view sliceOffset sliceSize palette
          (jstr "[" ++ cpuName ++ jstr "] ")
        pure ([Region.mk (jstr "Slice: " ++ cpuName) sliceOffset sliceSize .SEGMENT
          (some (jstr "Full binary for " ++ cpuName)) none palette.OVERLAY
          (some sliceParse.1) none], sliceParse.2)
      else pure (([], []) : List Region × List SectionMetadata)
    let rest ← machOFatLoop view palette isLE (offset + 20) i
    return (archRegion :: sliceStuff.1 ++ rest.1, sliceStuff.2 ++ rest.2)

/-- The `parseMachO` function from `machOParser.ts`: Fat/Universal detection via the
big-endian leading magic, else a single-arch parse at offset 0; the final
region list is sorted ascending by offset. -/
def parseMachO (buffer : List Nat) (fileName : JSString) (isDarkMode : Bool) :
    Except JSError ParsedFile := do
  let view := buffer
  let palette := if isDarkMode then DARK_COLORS else COLORS
  if view.length < 28 then
    return { name := fileName, size := buffer.length, data := view, regions := [],
             sectionsMetadata := [], isValid := false,
             error := some (jstr "File too small"), format := jstr "Mach-O" }
  let magic ← dvGetUint32 view 0 false
  let parts ← if magic = 0xCAFEBABE ∨ magic = 0xBEBAFECA ∨ magic = 0xCAFEBABF ∨
      magic = 0xBFBAFECA then do
      let isLE := magic = 0xBEBAFECA ∨ magic = 0xBFBAFECA
      let nFatArch ← dvGetUint32 view 4 isLE
      let fatHeaderRegion := Region.mk (jstr "Fat Header") 0 8 .FAT_HEADER none none
        palette.FAT_HEADER none
        (some [(jstr "Magic", .str (formatHex magic 8)),
               (jstr "NumArchs", .num nFatArch)])
      let arch ← machOFatLoop view palette isLE 8 nFatArch
      pure (fatHeaderRegion :: arch.1, arch.2)
    else
      parseMachOAtOffset view 0 view.length palette []
  let regions := stableSort (fun a b => decide (a.offset ≤ b.offset)) parts.1
  return { name := fileName, size := buffer.length, data := view,
           regions := regions, sectionsMetadata := parts.2, isValid := true,
           format := jstr "Mach-O" }

/-- A Fat Mach-O whose single `fat_arch` entry declares the slice range
`[28, 32)` (offset 28, size 4) while a well-formed 32-bit Mach-O header
actually sits at offset 28: the header needs 28 bytes, far more than the
declared 4. -/
def machOFatC3 : List Nat :=
  [0xCA, 0xFE, 0xBA, 0xBE, 0, 0, 0, 1,
   0, 0, 0, 0, 0, 0, 0, 0, 0, 0, 0, 28, 0, 0, 0, 4, 0, 0, 0, 0,
   0xFE, 0xED, 0xFA, 0xCE] ++ List.replicate 24 0

/-- C3 (code bug): on `machOFatC3` the slice region spans the declared
`[28, 32)`, but its nested `Mach-O Header` child spans `[28, 56)` and its
nested `Load Commands` child sits at offset 56 — both escape the slice's
declared byte range, because `parseMachOAtOffset` never reads its
`sizeLimit` argument and bounds-checks against the whole buffer instead. -/
theorem parseMachO_slice_child_escapes :
    ((parseMachO machOFatC3 [] true).map fun pf =>
        pf.regions.map fun r =>
          (r.offset, r.size,
            (r.children.getD []).map fun ch => (ch.offset, ch.size))) =
      .ok [(0, 8, []), (8, 20, []), (28, 4, [(28, 28), (56, 0)])] := by
  rfl
